import Mathlib

/-!
A verification development for the image-generation orchestration pipeline of
the RedInkMore backend (`backend/services/image.py` and the generator adapters
`backend/generators/openai_compatible.py`, `backend/generators/image_api.py`).

The Python code is shallowly embedded: the remote provider call together with
the on-disk save of the produced artifact is modelled by a pure `oracle`
function from the constructed provider request to `Except String Bytes`
(an exception anywhere inside the `try` block of `_generate_single_image`
is an `.error` outcome), the reference-image compressor
(`backend/utils/image_compressor.py`, whose source is not part of the
orchestrator sources) is an abstract function parameter, Python dicts are
association lists updated in place, and the SSE generator is the list of the
events it yields.  Thread-pool completion order (`as_completed`) is an
explicit `arrival` list, assumed to be a permutation of the submitted pages.
-/

namespace RedInk

/-- Opaque binary blobs (image bytes). -/
abbrev Bytes := String

/-- A page parsed from the outline: `{"index": ..., "type": ..., "content": ...}`. -/
structure Page where
  index : Nat
  type : String
  content : String
deriving DecidableEq, Repr

/-! ### Python dict over `Nat` keys (the `generated` / `failed` maps)

`dinsert` is `d[k] = v` (update in place, else append), `derase` is `del d[k]`,
`dlookup` is `d.get(k)`, `dmem` is `k in d`. -/

def dinsert (k : Nat) (v : String) : List (Nat × String) → List (Nat × String)
  | [] => [(k, v)]
  | (k', v') :: rest => if k' = k then (k, v) :: rest else (k', v') :: dinsert k v rest

def derase (k : Nat) : List (Nat × String) → List (Nat × String)
  | [] => []
  | (k', v') :: rest => if k' = k then derase k rest else (k', v') :: derase k rest

def dlookup (k : Nat) : List (Nat × String) → Option String
  | [] => none
  | (k', v) :: rest => if k' = k then some v else dlookup k rest

def dmem (k : Nat) : List (Nat × String) → Bool
  | [] => false
  | (k', _) :: rest => if k' = k then true else dmem k rest

/-! ### Prompt templates

`image_prompt.txt` has placeholders `{page_content}`, `{page_type}`,
`{full_outline}`, `{user_topic}`; `image_prompt_short.txt` has only
`{page_content}` and `{page_type}`.  A template file is modelled as the
sequence of its literal and placeholder chunks, and `str.format` as the
concatenation substituting each placeholder. -/

inductive Chunk where
  | lit (s : String)
  | pageContent
  | pageType
  | fullOutline
  | userTopic
deriving DecidableEq

inductive SChunk where
  | lit (s : String)
  | pageContent
  | pageType
deriving DecidableEq

def formatFull (t : List Chunk) (content ty outline topic : String) : String :=
  t.foldl (fun acc c =>
    acc ++ match c with
    | .lit s => s
    | .pageContent => content
    | .pageType => ty
    | .fullOutline => outline
    | .userTopic => topic) ""

def formatShort (t : List SChunk) (content ty : String) : String :=
  t.foldl (fun acc c =>
    acc ++ match c with
    | .lit s => s
    | .pageContent => content
    | .pageType => ty) ""

/-- The full-template call of `_generate_single_image` (image.py lines 171-176):
`self.prompt_template.format(page_content=..., page_type=..., full_outline=full_outline,
user_topic=user_topic if user_topic else "未提供")`.  Note that only the topic
falls back to the placeholder; the outline is substituted literally. -/
def fullModePrompt (t : List Chunk) (page : Page) (fullOutline userTopic : String) : String :=
  formatFull t page.content page.type fullOutline
    (if userTopic = "" then "未提供" else userTopic)

/-- Modelled from the spec (§4.3 prompt construction): "Missing outline/topic
default to a neutral placeholder (e.g. \"not provided\") rather than empty
string" — i.e. both the outline and the topic are replaced by the placeholder
when empty.  Used to state claim C7 against the code. -/
def specFullModePrompt (t : List Chunk) (page : Page) (fullOutline userTopic : String) : String :=
  formatFull t page.content page.type
    (if fullOutline = "" then "未提供" else fullOutline)
    (if userTopic = "" then "未提供" else userTopic)

/-! ### Provider configuration and request shapes -/

/-- The slice of the provider configuration consumed by `ImageService`. -/
structure Ctx where
  providerType : String
  useShortPrompt : Bool
  tmplFull : List Chunk
  tmplShort : List SChunk
  highConcurrency : Bool

/-- The request handed to the generator adapter, per provider branch of
`_generate_single_image` (image.py lines 184-217): `google_genai` takes a
single optional reference image, `image_api` takes a combined list of
user images and the cover reference, any other type (OpenAI-compatible)
receives no reference at all. -/
inductive ProviderCall where
  | google (prompt : String) (reference : Option Bytes)
  | imageApi (prompt : String) (references : Option (List Bytes))
  | openaiApi (prompt : String)
deriving DecidableEq

/-- Build the provider request (image.py lines 184-217).  In the `image_api`
branch the reference list is `user_images + [reference_image]`, with Python
truthiness checks: an empty reference blob is not appended and an empty final
list is passed as `None`. -/
def mkCall (ctx : Ctx) (prompt : String) (reference : Option Bytes)
    (userImages : Option (List Bytes)) : ProviderCall :=
  if ctx.providerType = "google_genai" then .google prompt reference
  else if ctx.providerType = "image_api" then
    let refs := (match userImages with | some l => l | none => [])
      ++ (match reference with | some r => if r = "" then [] else [r] | none => [])
    .imageApi prompt (if refs.isEmpty then none else some refs)
  else .openaiApi prompt

/-- Prompt construction of `_generate_single_image` (image.py lines 161-181):
short template when `short_prompt` is configured and the short template file
is non-empty, else the full template; a non-empty brand style is prepended. -/
def buildPrompt (ctx : Ctx) (brandStyle : Option String) (page : Page)
    (fullOutline userTopic : String) : String :=
  let base :=
    if ctx.useShortPrompt && !ctx.tmplShort.isEmpty then
      formatShort ctx.tmplShort page.content page.type
    else
      fullModePrompt ctx.tmplFull page fullOutline userTopic
  match brandStyle with
  | some b => if b = "" then base else b ++ "\n\n" ++ base
  | none => base

/-- Result of `_generate_single_image`, the 4-tuple
`(index, success, filename, error_message)`: `.ok i f d` is
`(i, True, f, None)` where `d` is the image data written to file `f`
(read back by `generate_images` for the cover), `.err i m` is
`(i, False, None, m)`. -/
inductive GenRes where
  | ok (index : Nat) (filename : String) (data : Bytes)
  | err (index : Nat) (message : String)
deriving DecidableEq

def GenRes.isOk : GenRes → Bool
  | .ok .. => true
  | .err .. => false

def fnameOf (p : Page) : String := toString p.index ++ ".png"

def imgUrl (taskId filename : String) : String :=
  "/api/images/" ++ taskId ++ "/" ++ filename

/-- `_generate_single_image` (image.py lines 127-229): builds the prompt,
dispatches to the provider, saves the artifact as `{index}.png`; every
exception inside the `try` block — modelled by the oracle's `.error` — is
caught and returned as a failure tuple, never propagated. -/
def genSingle (ctx : Ctx) (oracle : ProviderCall → Except String Bytes)
    (page : Page) (reference : Option Bytes) (fullOutline : String)
    (userImages : Option (List Bytes)) (userTopic : String)
    (brandStyle : Option String) : GenRes :=
  let prompt := buildPrompt ctx brandStyle page fullOutline userTopic
  match oracle (mkCall ctx prompt reference userImages) with
  | .ok data => .ok page.index (fnameOf page) data
  | .error e => .err page.index e

/-! ### Task state (`self._task_states[task_id]`, image.py lines 279-288) -/

structure TaskState where
  pages : List Page
  generated : List (Nat × String)
  failed : List (Nat × String)
  cover_image : Option Bytes
  full_outline : String
  user_images : Option (List Bytes)
  user_topic : String
  brand_style : Option String
deriving DecidableEq

/-- The task-state store `self._task_states`, a dict keyed by task id. -/
abbrev TStates := List (String × TaskState)

def slookup : TStates → String → Option TaskState
  | [], _ => none
  | (k', v) :: rest, k => if k' = k then some v else slookup rest k

def supdate (k : String) (v : TaskState) : TStates → TStates
  | [] => [(k, v)]
  | (k', v') :: rest => if k' = k then (k, v) :: rest else (k', v') :: supdate k v rest

/-- `user_images` preprocessing in `generate_images` (image.py lines 269-271):
`None` stays `None`, a truthy (non-empty) list is compressed element-wise, an
empty list is falsy and stays uncompressed `None`-like (the variable keeps the
initial `None`). -/
def compressUserImages (compress : Bytes → Bytes) :
    Option (List Bytes) → Option (List Bytes)
  | none => none
  | some l => if l.isEmpty then none else some (l.map compress)

/-! ### Progress events (the dictionaries yielded over SSE) -/

inductive Event where
  | progressCover (index : Nat) (message : String) (current total : Nat)
  | completeCover (index : Nat) (imageUrl : String)
  | errorCover (index : Nat) (message : String) (retryable : Bool)
  | batchStart (message : String) (current total : Nat)
  | progressContent (index current total : Nat)
  | completeContent (index : Nat) (imageUrl : String)
  | errorContent (index : Nat) (message : String) (retryable : Bool)
  | finish (success : Bool) (taskId : String) (images : List String)
      (total completed failed : Nat) (failedIndices : List Nat)
  | retryStart (total : Nat) (message : String)
  | retryComplete (index : Nat) (imageUrl : String)
  | retryError (index : Nat) (message : String) (retryable : Bool)
  | retryFinish (success : Bool) (total completed failed : Nat)
deriving DecidableEq

def Event.isFinish : Event → Bool
  | .finish .. => true
  | _ => false

def Event.isCoverPhase : Event → Bool
  | .progressCover .. => true
  | .completeCover .. => true
  | .errorCover .. => true
  | _ => false

def Event.isContentGenerating : Event → Bool
  | .progressContent .. => true
  | _ => false

def Event.isContentTerminal : Event → Bool
  | .completeContent .. => true
  | .errorContent .. => true
  | _ => false

/-! ### The two-phase pipeline `generate_images` -/

/-- Cover selection (image.py lines 290-303): the loop keeps the *last*
cover-typed page and collects all non-cover pages; with no cover-typed page
the first page is the cover and the rest fan out. -/
def selectCover (pages : List Page) : Option Page × List Page :=
  match (pages.filter (fun p => p.type = "cover")).getLast? with
  | some c => (some c, pages.filter (fun p => ¬ p.type = "cover"))
  | none =>
    match pages with
    | [] => (none, [])
    | p :: rest => (some p, rest)

/-- Parameters shared by every fan-out generation call of one run. -/
structure FanCtx where
  ctx : Ctx
  oracle : ProviderCall → Except String Bytes
  taskId : String
  coverRef : Option Bytes
  fullOutline : String
  userImages : Option (List Bytes)
  userTopic : String
  brandStyle : Option String
  total : Nat

/-- Outcome of one fan-out page (its `_generate_single_image` call). -/
def fanOutcome (P : FanCtx) (p : Page) : GenRes :=
  genSingle P.ctx P.oracle p P.coverRef P.fullOutline P.userImages P.userTopic P.brandStyle

/-- Accumulator of the fan-out loop: events yielded so far, the
`generated_images` and `failed_pages` lists, and the task's two maps. -/
structure FanAcc where
  events : List Event
  genImgs : List String
  failedPages : List Page
  gen : List (Nat × String)
  fail : List (Nat × String)

/-- One iteration of the fan-out loop (image.py lines 412-459 concurrent /
473-524 sequential): in sequential mode (`withProg = true`) a `generating`
progress event precedes the page's own generation; bookkeeping of the result
is identical in both modes. -/
def contentStep (P : FanCtx) (withProg : Bool) (acc : FanAcc) (p : Page) : FanAcc :=
  let pre := if withProg
    then [Event.progressContent p.index (acc.genImgs.length + 1) P.total]
    else []
  match fanOutcome P p with
  | .ok i f _ =>
    { acc with
      events := acc.events ++ pre ++ [Event.completeContent i (imgUrl P.taskId f)]
      genImgs := acc.genImgs ++ [f]
      gen := dinsert i f acc.gen }
  | .err i m =>
    { acc with
      events := acc.events ++ pre ++ [Event.errorContent i m true]
      failedPages := acc.failedPages ++ [p]
      fail := dinsert i m acc.fail }

/-- Phase 2 (image.py lines 362-524).  When there are no non-cover pages the
phase is skipped entirely.  In high-concurrency mode a `batch_start` event and
one `generating` event per page (submission order) are yielded before results
are collected in completion (`arrival`) order; in sequential mode pages are
processed in submission order with interleaved progress events. -/
def fanoutPhase (P : FanCtx) (others arrival : List Page) (acc0 : FanAcc) : FanAcc :=
  if others.isEmpty then acc0
  else if P.ctx.highConcurrency then
    let acc1 := { acc0 with
      events := acc0.events
        ++ [Event.batchStart ("开始并发生成 " ++ toString others.length ++ " 页内容...")
              acc0.genImgs.length P.total]
        ++ others.map (fun p => Event.progressContent p.index (acc0.genImgs.length + 1) P.total) }
    arrival.foldl (contentStep P false) acc1
  else
    let acc1 := { acc0 with
      events := acc0.events
        ++ [Event.batchStart ("开始顺序生成 " ++ toString others.length ++ " 页内容...")
              acc0.genImgs.length P.total] }
    others.foldl (contentStep P true) acc1

/-- The compressed cover bytes that become the shared reference of the fan-out
phase (image.py lines 329-336): `compress` of the artifact the cover call
produced, or `None` when the cover failed (or there is no cover). -/
def coverReference (ctx : Ctx) (oracle : ProviderCall → Except String Bytes)
    (compress : Bytes → Bytes) (cover? : Option Page) (fullOutline : String)
    (cuimgs : Option (List Bytes)) (userTopic : String)
    (brandStyle : Option String) : Option Bytes :=
  match cover? with
  | none => none
  | some c =>
    match genSingle ctx oracle c none fullOutline cuimgs userTopic brandStyle with
    | .ok _ _ d => some (compress d)
    | .err _ _ => none

/-- Phase 1 (image.py lines 305-360): generate the cover synchronously, cache
its compressed bytes, and record the result in the task maps and lists.
Returns (events, task state, generated_images, failed_pages, cover bytes). -/
def coverPhase (ctx : Ctx) (oracle : ProviderCall → Except String Bytes)
    (compress : Bytes → Bytes) (taskId : String) (total : Nat)
    (fullOutline : String) (cuimgs : Option (List Bytes)) (userTopic : String)
    (brandStyle : Option String) (ts0 : TaskState) (cover? : Option Page) :
    List Event × TaskState × List String × List Page × Option Bytes :=
  match cover? with
  | none => ([], ts0, [], [], none)
  | some c =>
    let pe := Event.progressCover c.index "正在生成封面..." 1 total
    match genSingle ctx oracle c none fullOutline cuimgs userTopic brandStyle with
    | .ok i f d =>
      let cbytes := compress d
      ([pe, Event.completeCover i (imgUrl taskId f)],
       { ts0 with generated := dinsert i f ts0.generated, cover_image := some cbytes },
       [f], [], some cbytes)
    | .err i m =>
      ([pe, Event.errorCover i m true],
       { ts0 with failed := dinsert i m ts0.failed },
       [], [c], none)

/-- The full pipeline `generate_images` (image.py lines 231-538), returning the
yielded event stream and the final state of the task (the value ending up in
`self._task_states[task_id]`).  `activeBrand` is the result of
`_get_active_brand_style()`, `arrival` the completion order of the
thread-pool futures (used only in high-concurrency mode). -/
def generate_images (ctx : Ctx) (oracle : ProviderCall → Except String Bytes)
    (compress : Bytes → Bytes) (pages : List Page) (taskId : String)
    (fullOutline : String) (userImages : Option (List Bytes))
    (userTopic : String) (activeBrand : Option String) (arrival : List Page) :
    List Event × TaskState :=
  let total := pages.length
  let cuimgs := compressUserImages compress userImages
  let ts0 : TaskState :=
    { pages := pages, generated := [], failed := [], cover_image := none,
      full_outline := fullOutline, user_images := cuimgs,
      user_topic := userTopic, brand_style := activeBrand }
  let sel := selectCover pages
  let cp := coverPhase ctx oracle compress taskId total fullOutline cuimgs
    userTopic activeBrand ts0 sel.1
  let P : FanCtx :=
    { ctx := ctx, oracle := oracle, taskId := taskId, coverRef := cp.2.2.2.2,
      fullOutline := fullOutline, userImages := cuimgs, userTopic := userTopic,
      brandStyle := activeBrand, total := total }
  let acc0 : FanAcc :=
    { events := cp.1, genImgs := cp.2.2.1, failedPages := cp.2.2.2.1,
      gen := cp.2.1.generated, fail := cp.2.1.failed }
  let accF := fanoutPhase P sel.2 arrival acc0
  let finE := Event.finish accF.failedPages.isEmpty taskId accF.genImgs total
    accF.genImgs.length accF.failedPages.length (accF.failedPages.map Page.index)
  (accF.events ++ [finE],
   { cp.2.1 with generated := accF.gen, failed := accF.fail })

/-! ### Retry operations -/

/-- Result dict of `retry_single_image` / `regenerate_image`. -/
structure RetryResult where
  success : Bool
  index : Nat
  image_url : Option String
  error : Option String
  retryable : Option Bool
deriving DecidableEq

/-- The reference image used by `retry_single_image` (image.py lines 564-592):
the task's in-memory cover bytes when present, else — still only when
`use_reference` is set — the recompressed contents of `0.png` in the task
directory (`disk0`, `none` when the file does not exist). -/
def retrySingleReference (compress : Bytes → Bytes) (disk0 : Option Bytes)
    (states : TStates) (taskId : String) (useReference : Bool) : Option Bytes :=
  if useReference then
    match (slookup states taskId).bind (fun ts => ts.cover_image) with
    | some r => some r
    | none => disk0.map compress
  else none

/-- The reference image used by `retry_failed_images` (image.py lines 639-652):
only the task's in-memory cover bytes; there is no on-disk fallback in this
code path. -/
def retryFailedReference (states : TStates) (taskId : String) : Option Bytes :=
  (slookup states taskId).bind (fun ts => ts.cover_image)

/-- Modelled from the spec (§4.3 retry context reload): "if the cover bytes
are absent from memory ... fall back to reading `0.png` off disk and
recompressing it" — the spec states this fallback for every retry/regenerate
operation, including `retry_failed_pages`.  Used to state claim C6. -/
def specRetryReference (compress : Bytes → Bytes) (disk0 : Option Bytes)
    (states : TStates) (taskId : String) : Option Bytes :=
  match (slookup states taskId).bind (fun ts => ts.cover_image) with
  | some r => some r
  | none => disk0.map compress

/-- `retry_single_image` (image.py lines 540-622): re-generate one page using
the cached task context, patch the task maps on success, and return the result
dict.  On failure the task state is left untouched. -/
def retry_single_image (ctx : Ctx) (oracle : ProviderCall → Except String Bytes)
    (compress : Bytes → Bytes) (disk0 : Option Bytes) (states : TStates)
    (taskId : String) (page : Page) (useReference : Bool)
    (fullOutline0 userTopic0 : String) (activeBrand : Option String) :
    RetryResult × TStates :=
  let ts? := slookup states taskId
  let fullOutline := match ts? with
    | some ts => if fullOutline0 = "" then ts.full_outline else fullOutline0
    | none => fullOutline0
  let userTopic := match ts? with
    | some ts => if userTopic0 = "" then ts.user_topic else userTopic0
    | none => userTopic0
  let userImages := match ts? with
    | some ts => ts.user_images
    | none => none
  let brand := match (match ts? with | some ts => ts.brand_style | none => none) with
    | some b => some b
    | none => activeBrand
  let reference := retrySingleReference compress disk0 states taskId useReference
  match genSingle ctx oracle page reference fullOutline userImages userTopic brand with
  | .ok i f _ =>
    let states' := match ts? with
      | some ts =>
        supdate taskId
          { ts with generated := dinsert i f ts.generated, failed := derase i ts.failed }
          states
      | none => states
    ({ success := true, index := i, image_url := some (imgUrl taskId f),
       error := none, retryable := none }, states')
  | .err i m =>
    ({ success := false, index := i, image_url := none,
       error := some m, retryable := some true }, states)

/-- `regenerate_image` (image.py lines 740-765) simply delegates to
`retry_single_image` with the same arguments. -/
def regenerate_image (ctx : Ctx) (oracle : ProviderCall → Except String Bytes)
    (compress : Bytes → Bytes) (disk0 : Option Bytes) (states : TStates)
    (taskId : String) (page : Page) (useReference : Bool)
    (fullOutline0 userTopic0 : String) (activeBrand : Option String) :
    RetryResult × TStates :=
  retry_single_image ctx oracle compress disk0 states taskId page useReference
    fullOutline0 userTopic0 activeBrand

/-- Accumulator of the `retry_failed_images` collection loop. -/
structure RetryAcc where
  events : List Event
  succ : Nat
  failCnt : Nat
  states : TStates

/-- One completed future of `retry_failed_images` (image.py lines 686-728):
success patches the task maps (when the task still exists) and yields
`complete`; failure only yields `error` and counts it. -/
def retryStep (ctx : Ctx) (oracle : ProviderCall → Except String Bytes)
    (taskId : String) (reference : Option Bytes) (fullOutline : String)
    (userImages : Option (List Bytes)) (userTopic : String)
    (brand : Option String) (acc : RetryAcc) (p : Page) : RetryAcc :=
  match genSingle ctx oracle p reference fullOutline userImages userTopic brand with
  | .ok i f _ =>
    let states' := match slookup acc.states taskId with
      | some ts =>
        supdate taskId
          { ts with generated := dinsert i f ts.generated, failed := derase i ts.failed }
          acc.states
      | none => acc.states
    { events := acc.events ++ [Event.retryComplete i (imgUrl taskId f)],
      succ := acc.succ + 1, failCnt := acc.failCnt, states := states' }
  | .err i m =>
    { acc with
      events := acc.events ++ [Event.retryError i m true]
      failCnt := acc.failCnt + 1 }

/-- `retry_failed_images` (image.py lines 624-738): batch-retry the given
pages with the cached context (in-memory cover reference only), collecting
results in completion (`arrival`) order, framed by `retry_start` and
`retry_finish` events. -/
def retry_failed_images (ctx : Ctx) (oracle : ProviderCall → Except String Bytes)
    (states : TStates) (taskId : String) (pages : List Page)
    (activeBrand : Option String) (arrival : List Page) :
    List Event × TStates :=
  let ts? := slookup states taskId
  let reference := retryFailedReference states taskId
  let brand := match (match ts? with | some ts => ts.brand_style | none => none) with
    | some b => some b
    | none => activeBrand
  let userImages := match ts? with
    | some ts => ts.user_images
    | none => none
  let userTopic := match ts? with
    | some ts => ts.user_topic
    | none => ""
  let fullOutline := match ts? with
    | some ts => ts.full_outline
    | none => ""
  let total := pages.length
  let acc0 : RetryAcc :=
    { events := [Event.retryStart total ("开始重试 " ++ toString total ++ " 张失败的图片")],
      succ := 0, failCnt := 0, states := states }
  let accF := arrival.foldl
    (retryStep ctx oracle taskId reference fullOutline userImages userTopic brand) acc0
  (accF.events ++ [Event.retryFinish (accF.failCnt == 0) total accF.succ accF.failCnt],
   accF.states)

/-! ### Chat-completion response scraping (openai_compatible.py / image_api.py)

The regex machinery of the two `_generate_via_chat_api` methods is embedded as
character-list scanners.  Pattern 1 (`openai_compatible.py` line 365 and
`image_api.py` line 292) is `!\[.*?\]\((https?://[^\s\)]+)\)`; pattern 2
(`image_api.py` line 299) is `!\[.*?\]\((data:image\/[^;]+;base64,[^\s\)]+)\)`.
The scanners reproduce leftmost-match semantics: the lazy `.*?` (which cannot
cross a newline) tries the closing `](...)` at every position, and the greedy
character classes are maximal runs followed by the required literal. -/

/-- Python `\s` (the whitespace class of the `re` module, ASCII subset). -/
def pyWs (c : Char) : Bool :=
  c == ' ' || c == '\t' || c == '\n' || c == '\r' || c == '\x0b' || c == '\x0c'

/-- A character admitted by `[^\s\)]`. -/
def isUrlChar (c : Char) : Bool := !(c == ')') && !(pyWs c)

/-- Strip a literal from the head of the input, or fail. -/
def dropLead : List Char → List Char → Option (List Char)
  | [], cs => some cs
  | _ :: _, [] => none
  | p :: ps, c :: cs => if c = p then dropLead ps cs else none

def leadMatch : List Char → List Char → Bool
  | [], _ => true
  | _ :: _, [] => false
  | p :: ps, c :: cs => p == c && leadMatch ps cs

/-- Python `s.startswith(p)`. -/
def startsWithStr (p s : String) : Bool := leadMatch p.toList s.toList

/-- Python `s.strip()`. -/
def pyStrip (s : String) : String :=
  String.mk (((s.toList.dropWhile pyWs).reverse.dropWhile pyWs).reverse)

/-- Python `s[:500]`. -/
def take500 (s : String) : String := String.mk (s.toList.take 500)

/-- Python `s.split(",")`. -/
def splitChar (sep : Char) : List Char → List (List Char)
  | [] => [[]]
  | c :: rest =>
    match splitChar sep rest with
    | [] => [[c]]
    | h :: t => if c = sep then [] :: h :: t else (c :: h) :: t

/-- Python `s.split(",")[1]`, `none` on the `IndexError` when the string holds
no comma. -/
def pySplitComma1 (s : String) : Option String :=
  ((splitChar ',' s.toList).get? 1).map String.mk

/-- Match `(https?://[^\s\)]+)\)` (greedy body then the closing paren). -/
def readHttpUrl (cs : List Char) : Option String :=
  let go : String → List Char → Option String := fun scheme r =>
    let body := r.takeWhile isUrlChar
    if body.isEmpty then none
    else match r.drop body.length with
      | ')' :: _ => some (scheme ++ String.mk body)
      | _ => none
  match dropLead "https://".toList cs with
  | some r => go "https://" r
  | none =>
    match dropLead "http://".toList cs with
    | some r => go "http://" r
    | none => none

/-- Match `(data:image\/[^;]+;base64,[^\s\)]+)\)`. -/
def readDataUri (cs : List Char) : Option String :=
  match dropLead "data:image/".toList cs with
  | none => none
  | some r =>
    let sub := r.takeWhile (fun c => !(c == ';'))
    if sub.isEmpty then none
    else
      match dropLead ";base64,".toList (r.drop sub.length) with
      | none => none
      | some r2 =>
        let body := r2.takeWhile isUrlChar
        if body.isEmpty then none
        else match r2.drop body.length with
          | ')' :: _ => some ("data:image/" ++ String.mk sub ++ ";base64," ++ String.mk body)
          | _ => none

/-- Try `\]\(` followed by the http(s) URL group at this position. -/
def tryUrlAt : List Char → Option String
  | ']' :: '(' :: rest => readHttpUrl rest
  | _ => none

/-- Lazy `.*?` between `![` and `](url)`: try the closer at each position,
else consume one non-newline character. -/
def scanAlt : List Char → Option String
  | [] => none
  | c :: cs =>
    match tryUrlAt (c :: cs) with
    | some u => some u
    | none => if c = '\n' then none else scanAlt cs

/-- First (leftmost) markdown http(s) image URL in the content. -/
def findMdHttp : List Char → Option String
  | [] => none
  | '!' :: rest =>
    (match rest with
     | '[' :: rest2 =>
       (match scanAlt rest2 with
        | some u => some u
        | none => findMdHttp rest)
     | _ => findMdHttp rest)
  | _ :: rest => findMdHttp rest

def tryDataAt : List Char → Option String
  | ']' :: '(' :: rest => readDataUri rest
  | _ => none

def scanAlt2 : List Char → Option String
  | [] => none
  | c :: cs =>
    match tryDataAt (c :: cs) with
    | some u => some u
    | none => if c = '\n' then none else scanAlt2 cs

/-- First (leftmost) markdown base64 data-URI image in the content. -/
def findMdData : List Char → Option String
  | [] => none
  | '!' :: rest =>
    (match rest with
     | '[' :: rest2 =>
       (match scanAlt2 rest2 with
        | some u => some u
        | none => findMdData rest)
     | _ => findMdData rest)
  | _ :: rest => findMdData rest

/-- What a successful scrape resolves to: download a URL, or base64-decode a
payload.  The download / decode themselves are outside the scraping logic. -/
inductive ChatScrape where
  | download (url : String)
  | decodeB64 (payload : String)
deriving DecidableEq

/-- The `raise ValueError(...)` message at the end of
`openai_compatible.py::_generate_via_chat_api` (lines 345-355), with the raw
response (modelled by the message content) truncated to 500 characters. -/
def openaiNoImageMsg (raw : String) : String :=
  "❌ 无法从 Chat API 响应中提取图片数据\n\n【响应内容】\n" ++ take500 raw
    ++ "\n\n【可能原因】\n1. 该模型不支持图片生成\n2. 响应格式与预期不符\n3. 提示词被安全过滤\n\n"
    ++ "【解决方案】\n1. 确认模型名称正确（如 Nano-Banana-Pro）\n2. 修改提示词后重试"

/-- The `raise Exception(...)` message at the end of
`image_api.py::_generate_via_chat_api` (lines 317-327). -/
def imageApiNoImageMsg (raw : String) : String :=
  "❌ 无法从 Chat API 响应中提取图片数据\n\n【响应内容】\n" ++ take500 raw
    ++ "\n\n【可能原因】\n1. 该模型不支持图片生成\n2. 响应格式与预期不符\n3. 提示词被安全过滤\n\n"
    ++ "【解决方案】\n1. 确认模型名称正确\n2. 修改提示词后重试"

/-- Scraping of a string chat-completion message content in
`openai_compatible.py::_generate_via_chat_api` (lines 317-355): markdown
http(s) image link, then bare data URI, then bare URL; otherwise the raising
of the diagnostic error.  There is no markdown-data-URI step here. -/
def openaiChatScrape (content : String) : Except String ChatScrape :=
  match findMdHttp content.toList with
  | some url => .ok (.download url)
  | none =>
    if startsWithStr "data:image" content then
      match pySplitComma1 content with
      | some payload => .ok (.decodeB64 payload)
      | none => .error "IndexError: list index out of range"
    else if startsWithStr "http://" content || startsWithStr "https://" content then
      .ok (.download (pyStrip content))
    else .error (openaiNoImageMsg content)

/-- Scraping of a string chat-completion message content in
`image_api.py::_generate_via_chat_api` (lines 285-327): markdown http(s)
image link, then markdown base64 data URI, then bare data URI, then bare URL;
otherwise the raising of the diagnostic error. -/
def imageApiChatScrape (content : String) : Except String ChatScrape :=
  match findMdHttp content.toList with
  | some url => .ok (.download url)
  | none =>
    match findMdData content.toList with
    | some uri =>
      match pySplitComma1 uri with
      | some payload => .ok (.decodeB64 payload)
      | none => .error "IndexError: list index out of range"
    | none =>
      if startsWithStr "data:image" content then
        match pySplitComma1 content with
        | some payload => .ok (.decodeB64 payload)
        | none => .error "IndexError: list index out of range"
      else if startsWithStr "http://" content || startsWithStr "https://" content then
        .ok (.download (pyStrip content))
      else .error (imageApiNoImageMsg content)

/-- Modelled from the spec (§4.1): the scraping order the spec prescribes for
*both* chat-style adapters — markdown http(s) URL, markdown base64 data URI,
bare data URI, bare http(s) URL; the first matching form determines the
result ( `none` when no form matches).  Used to state claim C8. -/
def specChatScrapeForm (content : String) : Option ChatScrape :=
  match findMdHttp content.toList with
  | some url => some (.download url)
  | none =>
    match findMdData content.toList with
    | some uri => (pySplitComma1 uri).map ChatScrape.decodeB64
    | none =>
      if startsWithStr "data:image" content then
        (pySplitComma1 content).map ChatScrape.decodeB64
      else if startsWithStr "http://" content || startsWithStr "https://" content then
        some (.download (pyStrip content))
      else none

/-! ### Event-stream ordering predicates -/

/-- The page index an event refers to, when it has one. -/
def Event.pageIndex? : Event → Option Nat
  | .progressCover i _ _ _ => some i
  | .completeCover i _ => some i
  | .errorCover i _ _ => some i
  | .progressContent i _ _ => some i
  | .completeContent i _ => some i
  | .errorContent i _ _ => some i
  | .retryComplete i _ => some i
  | .retryError i _ _ => some i
  | _ => none

/-- All content-phase `generating` events precede every content-phase
`complete`/`error` event: after any terminal content event no further
`generating` event appears. -/
def contentGenAnnouncedFirst : List Event → Bool
  | [] => true
  | e :: rest =>
    if e.isContentTerminal then rest.all (fun x => !x.isContentGenerating)
    else contentGenAnnouncedFirst rest

/-- The cover-phase events form a prefix of the stream. -/
def coverEventsFirst (evs : List Event) : Bool :=
  (evs.dropWhile (fun e => e.isCoverPhase)).all (fun e => !e.isCoverPhase)

/-- The stream ends with a summary (`finish`) event. -/
def finishLast (evs : List Event) : Bool :=
  match evs.getLast? with
  | some e => e.isFinish
  | none => false

/-- Claim C4's ordering property of one run's event stream, as stated in the
spec: cover events first, all fan-out `generating` events before any content
`complete`/`error`, and the summary last. -/
def specEventOrdering (evs : List Event) : Bool :=
  coverEventsFirst evs && contentGenAnnouncedFirst evs && finishLast evs

/-! ### Characterization of the fan-out loop -/

/-- Whether a page's fan-out generation call succeeds. -/
def okP (P : FanCtx) (p : Page) : Bool := (fanOutcome P p).isOk

/-- The terminal (`complete` or `error`) event the fan-out loop yields for a
page. -/
def terminalEvt (P : FanCtx) (p : Page) : Event :=
  match fanOutcome P p with
  | .ok i f _ => Event.completeContent i (imgUrl P.taskId f)
  | .err i m => Event.errorContent i m true

/-- The events produced by the fan-out loop over a list of pages, starting
from `cnt` previously generated images (`withProg` adds the sequential-mode
per-page `generating` event). -/
def seqEvts (P : FanCtx) (w : Bool) : List Page → Nat → List Event
  | [], _ => []
  | p :: rest, cnt =>
    (if w then [Event.progressContent p.index (cnt + 1) P.total] else [])
    ++ match fanOutcome P p with
       | .ok i f _ => Event.completeContent i (imgUrl P.taskId f) :: seqEvts P w rest (cnt + 1)
       | .err i m => Event.errorContent i m true :: seqEvts P w rest cnt

/-- The list of pages the fan-out loop actually iterates over: nothing when
there are no non-cover pages, the completion order in high-concurrency mode,
submission order otherwise. -/
def fanOrder (P : FanCtx) (others arrival : List Page) : List Page :=
  if others.isEmpty then []
  else if P.ctx.highConcurrency then arrival
  else others

/-- The events the fan-out phase appends. -/
def fanPhaseEvts (P : FanCtx) (others arrival : List Page) (cnt : Nat) : List Event :=
  if others.isEmpty then []
  else if P.ctx.highConcurrency then
    Event.batchStart ("开始并发生成 " ++ toString others.length ++ " 页内容...") cnt P.total
      :: (others.map (fun p => Event.progressContent p.index (cnt + 1) P.total)
          ++ seqEvts P false arrival cnt)
  else
    Event.batchStart ("开始顺序生成 " ++ toString others.length ++ " 页内容...") cnt P.total
      :: seqEvts P true others cnt

/-! ### Anatomy of one `generate_images` run -/

section RunAnatomy

variable (ctx : Ctx) (oracle : ProviderCall → Except String Bytes) (compress : Bytes → Bytes)
  (pages : List Page) (taskId : String) (fullOutline : String)
  (userImages : Option (List Bytes)) (userTopic : String) (activeBrand : Option String)
  (arrival : List Page)

/-- The fresh task state installed at the start of the run. -/
def runTs0 : TaskState :=
  { pages := pages, generated := [], failed := [], cover_image := none,
    full_outline := fullOutline, user_images := compressUserImages compress userImages,
    user_topic := userTopic, brand_style := activeBrand }

/-- The cover phase of the run. -/
def runCP : List Event × TaskState × List String × List Page × Option Bytes :=
  coverPhase ctx oracle compress taskId pages.length fullOutline
    (compressUserImages compress userImages) userTopic activeBrand
    (runTs0 compress pages fullOutline userImages userTopic activeBrand)
    (selectCover pages).1

/-- The fan-out context of the run. -/
def runP : FanCtx :=
  { ctx := ctx, oracle := oracle, taskId := taskId,
    coverRef := (runCP ctx oracle compress pages taskId fullOutline userImages userTopic activeBrand).2.2.2.2,
    fullOutline := fullOutline, userImages := compressUserImages compress userImages,
    userTopic := userTopic, brandStyle := activeBrand, total := pages.length }

/-- The fan-out phase of the run. -/
def runAccF : FanAcc :=
  fanoutPhase (runP ctx oracle compress pages taskId fullOutline userImages userTopic activeBrand)
    (selectCover pages).2 arrival
    { events := (runCP ctx oracle compress pages taskId fullOutline userImages userTopic activeBrand).1,
      genImgs := (runCP ctx oracle compress pages taskId fullOutline userImages userTopic activeBrand).2.2.1,
      failedPages := (runCP ctx oracle compress pages taskId fullOutline userImages userTopic activeBrand).2.2.2.1,
      gen := (runCP ctx oracle compress pages taskId fullOutline userImages userTopic activeBrand).2.1.generated,
      fail := (runCP ctx oracle compress pages taskId fullOutline userImages userTopic activeBrand).2.1.failed }

/-- The final summary event of the run. -/
def runFin : Event :=
  Event.finish
    (runAccF ctx oracle compress pages taskId fullOutline userImages userTopic activeBrand arrival).failedPages.isEmpty
    taskId
    (runAccF ctx oracle compress pages taskId fullOutline userImages userTopic activeBrand arrival).genImgs
    pages.length
    (runAccF ctx oracle compress pages taskId fullOutline userImages userTopic activeBrand arrival).genImgs.length
    (runAccF ctx oracle compress pages taskId fullOutline userImages userTopic activeBrand arrival).failedPages.length
    ((runAccF ctx oracle compress pages taskId fullOutline userImages userTopic activeBrand arrival).failedPages.map Page.index)

end RunAnatomy

section CoverView

variable (ctx : Ctx) (oracle : ProviderCall → Except String Bytes) (compress : Bytes → Bytes)
  (pages : List Page) (taskId : String) (fullOutline : String)
  (userImages : Option (List Bytes)) (userTopic : String) (activeBrand : Option String)

/-- The selected cover page together with the outcome of its generation call. -/
def coverRes : Option (Page × GenRes) :=
  match (selectCover pages).1 with
  | none => none
  | some c =>
    some (c, genSingle ctx oracle c none fullOutline
      (compressUserImages compress userImages) userTopic activeBrand)

def coverOkImgs : List String :=
  match coverRes ctx oracle compress pages fullOutline userImages userTopic activeBrand with
  | some (_, .ok _ f _) => [f]
  | _ => []

def coverFailPages : List Page :=
  match coverRes ctx oracle compress pages fullOutline userImages userTopic activeBrand with
  | some (c, .err _ _) => [c]
  | _ => []

def coverRefOf : Option Bytes :=
  match coverRes ctx oracle compress pages fullOutline userImages userTopic activeBrand with
  | some (_, .ok _ _ d) => some (compress d)
  | _ => none

def coverGenMap : List (Nat × String) :=
  match coverRes ctx oracle compress pages fullOutline userImages userTopic activeBrand with
  | some (_, .ok i f _) => [(i, f)]
  | _ => []

def coverFailMap : List (Nat × String) :=
  match coverRes ctx oracle compress pages fullOutline userImages userTopic activeBrand with
  | some (_, .err i m) => [(i, m)]
  | _ => []

def coverEvts : List Event :=
  match coverRes ctx oracle compress pages fullOutline userImages userTopic activeBrand with
  | none => []
  | some (c, .ok i f _) =>
    [Event.progressCover c.index "正在生成封面..." 1 pages.length,
     Event.completeCover i (imgUrl taskId f)]
  | some (c, .err i m) =>
    [Event.progressCover c.index "正在生成封面..." 1 pages.length,
     Event.errorCover i m true]

end CoverView

/-! ### Concrete fixtures for witnesses and counterexamples -/

def exTmpl : List Chunk :=
  [Chunk.lit "O:", Chunk.fullOutline, Chunk.lit ";T:", Chunk.userTopic,
   Chunk.lit ";C:", Chunk.pageContent]

def exCtx : Ctx :=
  { providerType := "image_api", useShortPrompt := false, tmplFull := exTmpl,
    tmplShort := [], highConcurrency := false }

def exCtxHc : Ctx :=
  { providerType := "image_api", useShortPrompt := false, tmplFull := exTmpl,
    tmplShort := [], highConcurrency := true }

def exOracleOk : ProviderCall → Except String Bytes := fun _ => .ok "IMG"

def exOracleFail : ProviderCall → Except String Bytes := fun _ => .error "boom"

def exPages : List Page := [⟨0, "cover", "A"⟩, ⟨1, "content", "B"⟩, ⟨2, "content", "C"⟩]

def exOthers : List Page := [⟨1, "content", "B"⟩, ⟨2, "content", "C"⟩]

def exPagesDup : List Page := [⟨0, "cover", "A"⟩, ⟨1, "content", "B"⟩, ⟨2, "cover", "C"⟩]

/-! ### The generated/failed invariant -/

/-- The spec's task-state invariant: the `generated` and `failed` key sets are
disjoint, and their union is contained in the indices of the task's submitted
pages. -/
def stInv (ts : TaskState) : Prop :=
  (∀ k, ¬ (dmem k ts.generated = true ∧ dmem k ts.failed = true))
  ∧ (∀ k, dmem k ts.generated = true ∨ dmem k ts.failed = true
      → k ∈ ts.pages.map Page.index)

def exTs1 : TaskState :=
  { pages := exPages, generated := [(1, "1.png")], failed := [], cover_image := some "C",
    full_outline := "", user_images := none, user_topic := "", brand_style := none }

def exTsNoCover : TaskState :=
  { pages := exPages, generated := [], failed := [(1, "boom")], cover_image := none,
    full_outline := "", user_images := none, user_topic := "", brand_style := none }

def exMd : String := "![x](data:image/png;base64,AAAA)"

/-! ### Dictionary lemmas -/

theorem dlookup_dinsert_self (k : Nat) (v : String) (m : List (Nat × String)) :
    dlookup k (dinsert k v m) = some v := by
  induction m with
  | nil => simp [dinsert, dlookup]
  | cons h t ih =>
    obtain ⟨k', v'⟩ := h
    by_cases hk : k' = k
    · simp [dinsert, dlookup, hk]
    · simp [dinsert, dlookup, hk, ih]

theorem dlookup_dinsert_ne (k k' : Nat) (v : String) (m : List (Nat × String))
    (h : k ≠ k') : dlookup k' (dinsert k v m) = dlookup k' m := by
  induction m with
  | nil => simp [dinsert, dlookup, h]
  | cons hd t ih =>
    obtain ⟨k₀, v₀⟩ := hd
    by_cases hk : k₀ = k
    · subst hk
      simp [dinsert, dlookup, h]
    · simp only [dinsert, if_neg hk, dlookup]
      by_cases hk' : k₀ = k'
      · simp [hk']
      · simp [hk', ih]

theorem dmem_dinsert (k k' : Nat) (v : String) (m : List (Nat × String)) :
    dmem k' (dinsert k v m) = (k = k' || dmem k' m) := by
  induction m with
  | nil => simp [dinsert, dmem]
  | cons hd t ih =>
    obtain ⟨k₀, v₀⟩ := hd
    by_cases hk : k₀ = k
    · subst hk
      by_cases hk' : k₀ = k' <;> simp [dinsert, dmem, hk', decide_eq_true_eq]
    · simp only [dinsert, if_neg hk, dmem]
      by_cases hk' : k₀ = k' <;> simp [hk', ih]

theorem dmem_derase (k k' : Nat) (m : List (Nat × String)) :
    dmem k' (derase k m) = (decide (k' ≠ k) && dmem k' m) := by
  induction m with
  | nil => simp [derase, dmem]
  | cons hd t ih =>
    obtain ⟨k₀, v₀⟩ := hd
    by_cases hk : k₀ = k
    · subst hk
      by_cases hk' : k₀ = k'
      · subst hk'
        simp [derase, dmem, ih]
      · simp [derase, dmem, hk', ih]
    · simp only [derase, if_neg hk, dmem]
      by_cases hk' : k₀ = k'
      · subst hk'
        simp [hk]
      · simp [hk', ih]

theorem dlookup_derase_ne (k k' : Nat) (m : List (Nat × String)) (h : k' ≠ k) :
    dlookup k' (derase k m) = dlookup k' m := by
  induction m with
  | nil => simp [derase, dlookup]
  | cons hd t ih =>
    obtain ⟨k₀, v₀⟩ := hd
    by_cases hk : k₀ = k
    · subst hk
      have h' : ¬ k₀ = k' := fun hh => h (hh.symm)
      simp [derase, dlookup, h', ih]
    · simp only [derase, if_neg hk, dlookup]
      by_cases hk' : k₀ = k' <;> simp [hk', ih]

theorem dmem_eq_true_iff (k : Nat) (m : List (Nat × String)) :
    dmem k m = true ↔ ∃ v, dlookup k m = some v := by
  induction m with
  | nil => simp [dmem, dlookup]
  | cons hd t ih =>
    obtain ⟨k₀, v₀⟩ := hd
    by_cases hk : k₀ = k <;> simp [dmem, dlookup, hk, ih]

theorem slookup_supdate_self (k : String) (v : TaskState) (m : TStates) :
    slookup (supdate k v m) k = some v := by
  induction m with
  | nil => simp [supdate, slookup]
  | cons hd t ih =>
    obtain ⟨k₀, v₀⟩ := hd
    by_cases hk : k₀ = k
    · simp [supdate, slookup, hk]
    · simp [supdate, slookup, hk, ih]

theorem slookup_supdate_ne (k k' : String) (v : TaskState) (m : TStates)
    (h : k ≠ k') : slookup (supdate k v m) k' = slookup m k' := by
  induction m with
  | nil => simp [supdate, slookup, h]
  | cons hd t ih =>
    obtain ⟨k₀, v₀⟩ := hd
    by_cases hk : k₀ = k
    · subst hk
      simp [supdate, slookup, h]
    · simp only [supdate, if_neg hk, slookup]
      by_cases hk' : k₀ = k' <;> simp [hk', ih]

theorem fanOutcome_eq_ok_or_err (P : FanCtx) (p : Page) :
    (∃ d, fanOutcome P p = .ok p.index (fnameOf p) d) ∨
    (∃ m, fanOutcome P p = .err p.index m) := by
  cases h : P.oracle (mkCall P.ctx (buildPrompt P.ctx P.brandStyle p P.fullOutline P.userTopic)
      P.coverRef P.userImages) with
  | ok d => exact Or.inl ⟨d, by simp [fanOutcome, genSingle, h]⟩
  | error e => exact Or.inr ⟨e, by simp [fanOutcome, genSingle, h]⟩

theorem fanOutcome_ok_eq {P : FanCtx} {p : Page} {i : Nat} {f : String} {d : Bytes}
    (h : fanOutcome P p = .ok i f d) : i = p.index ∧ f = fnameOf p := by
  rcases fanOutcome_eq_ok_or_err P p with ⟨d', hd⟩ | ⟨m, hm⟩
  · rw [hd] at h
    cases h
    exact ⟨rfl, rfl⟩
  · rw [hm] at h
    cases h

theorem fanOutcome_err_eq {P : FanCtx} {p : Page} {i : Nat} {m : String}
    (h : fanOutcome P p = .err i m) : i = p.index := by
  rcases fanOutcome_eq_ok_or_err P p with ⟨d', hd⟩ | ⟨m', hm⟩
  · rw [hd] at h
    cases h
  · rw [hm] at h
    cases h
    rfl

theorem okP_true_iff {P : FanCtx} {p : Page} :
    okP P p = true ↔ ∃ d, fanOutcome P p = .ok p.index (fnameOf p) d := by
  constructor
  · intro h
    rcases fanOutcome_eq_ok_or_err P p with ⟨d, hd⟩ | ⟨m, hm⟩
    · exact ⟨d, hd⟩
    · rw [okP, hm] at h
      simp [GenRes.isOk] at h
  · rintro ⟨d, hd⟩
    simp [okP, hd, GenRes.isOk]

theorem okP_false_iff {P : FanCtx} {p : Page} :
    okP P p = false ↔ ∃ m, fanOutcome P p = .err p.index m := by
  constructor
  · intro h
    rcases fanOutcome_eq_ok_or_err P p with ⟨d, hd⟩ | ⟨m, hm⟩
    · rw [okP, hd] at h
      simp [GenRes.isOk] at h
    · exact ⟨m, hm⟩
  · rintro ⟨m, hm⟩
    simp [okP, hm, GenRes.isOk]

theorem foldl_contentStep_events (P : FanCtx) (w : Bool) (l : List Page) :
    ∀ acc : FanAcc,
      (l.foldl (contentStep P w) acc).events = acc.events ++ seqEvts P w l acc.genImgs.length := by
  induction l with
  | nil => intro acc; simp [seqEvts]
  | cons p rest ih =>
    intro acc
    rw [List.foldl_cons]
    cases h : fanOutcome P p with
    | ok i f d =>
      rw [ih]
      simp [contentStep, h, seqEvts, List.append_assoc]
    | err i m =>
      rw [ih]
      simp [contentStep, h, seqEvts, List.append_assoc]

theorem foldl_contentStep_genImgs (P : FanCtx) (w : Bool) (l : List Page) :
    ∀ acc : FanAcc,
      (l.foldl (contentStep P w) acc).genImgs
        = acc.genImgs ++ (l.filter (okP P)).map fnameOf := by
  induction l with
  | nil => intro acc; simp
  | cons p rest ih =>
    intro acc
    rw [List.foldl_cons]
    cases h : fanOutcome P p with
    | ok i f d =>
      have hf := (fanOutcome_ok_eq h).2
      have hok : okP P p = true := by simp [okP, h, GenRes.isOk]
      rw [ih]
      simp [contentStep, h, List.filter_cons, hok, hf]
    | err i m =>
      have hok : okP P p = false := by simp [okP, h, GenRes.isOk]
      rw [ih]
      simp [contentStep, h, List.filter_cons, hok]

theorem foldl_contentStep_failedPages (P : FanCtx) (w : Bool) (l : List Page) :
    ∀ acc : FanAcc,
      (l.foldl (contentStep P w) acc).failedPages
        = acc.failedPages ++ l.filter (fun p => !okP P p) := by
  induction l with
  | nil => intro acc; simp
  | cons p rest ih =>
    intro acc
    rw [List.foldl_cons]
    cases h : fanOutcome P p with
    | ok i f d =>
      have hok : okP P p = true := by simp [okP, h, GenRes.isOk]
      rw [ih]
      simp [contentStep, h, List.filter_cons, hok]
    | err i m =>
      have hok : okP P p = false := by simp [okP, h, GenRes.isOk]
      rw [ih]
      simp [contentStep, h, List.filter_cons, hok]

theorem foldl_contentStep_gen_dmem (P : FanCtx) (w : Bool) (l : List Page) (k : Nat) :
    ∀ acc : FanAcc,
      (dmem k (l.foldl (contentStep P w) acc).gen = true
        ↔ dmem k acc.gen = true ∨ ∃ p ∈ l, okP P p = true ∧ p.index = k) := by
  induction l with
  | nil => intro acc; simp
  | cons p rest ih =>
    intro acc
    rw [List.foldl_cons]
    cases h : fanOutcome P p with
    | ok i f d =>
      have hi := (fanOutcome_ok_eq h).1
      have hok : okP P p = true := by simp [okP, h, GenRes.isOk]
      rw [ih]
      subst hi
      constructor
      · rintro (hm | ⟨q, hq, hqok, hqk⟩)
        · rw [contentStep] at hm
          simp only [h] at hm
          rw [dmem_dinsert] at hm
          rcases Bool.or_eq_true_iff.mp hm with hm | hm
          · exact Or.inr ⟨p, by simp, hok, of_decide_eq_true hm⟩
          · exact Or.inl hm
        · exact Or.inr ⟨q, by simp [hq], hqok, hqk⟩
      · rintro (hm | ⟨q, hq, hqok, hqk⟩)
        · left
          rw [contentStep]
          simp only [h]
          rw [dmem_dinsert, hm]
          simp
        · rcases List.mem_cons.mp hq with rfl | hq'
          · left
            rw [contentStep]
            simp only [h]
            rw [dmem_dinsert]
            simp [hqk]
          · exact Or.inr ⟨q, hq', hqok, hqk⟩
    | err i m =>
      have hok : okP P p = false := by simp [okP, h, GenRes.isOk]
      rw [ih]
      have hgen : (contentStep P w acc p).gen = acc.gen := by
        rw [contentStep]
        simp only [h]
      rw [hgen]
      constructor
      · rintro (hm | ⟨q, hq, hqok, hqk⟩)
        · exact Or.inl hm
        · exact Or.inr ⟨q, by simp [hq], hqok, hqk⟩
      · rintro (hm | ⟨q, hq, hqok, hqk⟩)
        · exact Or.inl hm
        · rcases List.mem_cons.mp hq with rfl | hq'
          · rw [hok] at hqok
            cases hqok
          · exact Or.inr ⟨q, hq', hqok, hqk⟩

theorem foldl_contentStep_fail_dmem (P : FanCtx) (w : Bool) (l : List Page) (k : Nat) :
    ∀ acc : FanAcc,
      (dmem k (l.foldl (contentStep P w) acc).fail = true
        ↔ dmem k acc.fail = true ∨ ∃ p ∈ l, okP P p = false ∧ p.index = k) := by
  induction l with
  | nil => intro acc; simp
  | cons p rest ih =>
    intro acc
    rw [List.foldl_cons]
    cases h : fanOutcome P p with
    | ok i f d =>
      have hok : okP P p = true := by simp [okP, h, GenRes.isOk]
      rw [ih]
      have hfail : (contentStep P w acc p).fail = acc.fail := by
        rw [contentStep]
        simp only [h]
      rw [hfail]
      constructor
      · rintro (hm | ⟨q, hq, hqok, hqk⟩)
        · exact Or.inl hm
        · exact Or.inr ⟨q, by simp [hq], hqok, hqk⟩
      · rintro (hm | ⟨q, hq, hqok, hqk⟩)
        · exact Or.inl hm
        · rcases List.mem_cons.mp hq with rfl | hq'
          · rw [hok] at hqok
            cases hqok
          · exact Or.inr ⟨q, hq', hqok, hqk⟩
    | err i m =>
      have hi := fanOutcome_err_eq h
      have hok : okP P p = false := by simp [okP, h, GenRes.isOk]
      rw [ih]
      subst hi
      constructor
      · rintro (hm | ⟨q, hq, hqok, hqk⟩)
        · rw [contentStep] at hm
          simp only [h] at hm
          rw [dmem_dinsert] at hm
          rcases Bool.or_eq_true_iff.mp hm with hm | hm
          · exact Or.inr ⟨p, by simp, hok, of_decide_eq_true hm⟩
          · exact Or.inl hm
        · exact Or.inr ⟨q, by simp [hq], hqok, hqk⟩
      · rintro (hm | ⟨q, hq, hqok, hqk⟩)
        · left
          rw [contentStep]
          simp only [h]
          rw [dmem_dinsert, hm]
          simp
        · rcases List.mem_cons.mp hq with rfl | hq'
          · left
            rw [contentStep]
            simp only [h]
            rw [dmem_dinsert]
            simp [hqk]
          · exact Or.inr ⟨q, hq', hqok, hqk⟩

theorem foldl_contentStep_fail_dlookup_stable (P : FanCtx) (w : Bool) (l : List Page)
    (k : Nat) (h : ∀ p ∈ l, p.index ≠ k) :
    ∀ acc : FanAcc,
      dlookup k (l.foldl (contentStep P w) acc).fail = dlookup k acc.fail := by
  induction l with
  | nil => intro acc; simp
  | cons p rest ih =>
    intro acc
    rw [List.foldl_cons]
    rw [ih (fun q hq => h q (List.mem_cons_of_mem p hq))]
    cases hr : fanOutcome P p with
    | ok i f d =>
      rw [contentStep]
      simp only [hr]
    | err i m =>
      have hi := fanOutcome_err_eq hr
      rw [contentStep]
      simp only [hr]
      exact dlookup_dinsert_ne i k m acc.fail (hi ▸ h p (List.mem_cons_self p rest))

theorem foldl_contentStep_gen_dlookup_stable (P : FanCtx) (w : Bool) (l : List Page)
    (k : Nat) (h : ∀ p ∈ l, p.index ≠ k) :
    ∀ acc : FanAcc,
      dlookup k (l.foldl (contentStep P w) acc).gen = dlookup k acc.gen := by
  induction l with
  | nil => intro acc; simp
  | cons p rest ih =>
    intro acc
    rw [List.foldl_cons]
    rw [ih (fun q hq => h q (List.mem_cons_of_mem p hq))]
    cases hr : fanOutcome P p with
    | ok i f d =>
      have hi := (fanOutcome_ok_eq hr).1
      rw [contentStep]
      simp only [hr]
      exact dlookup_dinsert_ne i k f acc.gen (hi ▸ h p (List.mem_cons_self p rest))
    | err i m =>
      rw [contentStep]
      simp only [hr]

theorem foldl_contentStep_fail_dlookup_mem (P : FanCtx) (w : Bool) {l : List Page}
    {p : Page} {m : String} (hp : p ∈ l) (hn : (l.map Page.index).Nodup)
    (hm : fanOutcome P p = .err p.index m) :
    ∀ acc : FanAcc,
      dlookup p.index (l.foldl (contentStep P w) acc).fail = some m := by
  induction l with
  | nil => cases hp
  | cons q rest ih =>
    intro acc
    rw [List.foldl_cons]
    rcases List.mem_cons.mp hp with rfl | hp'
    · have hstable : ∀ r ∈ rest, r.index ≠ p.index := by
        intro r hr
        have := (List.nodup_cons.mp hn).1
        intro he
        exact this (he ▸ List.mem_map_of_mem Page.index hr)
      rw [foldl_contentStep_fail_dlookup_stable P w rest p.index hstable]
      rw [contentStep]
      simp only [hm]
      exact dlookup_dinsert_self p.index m acc.fail
    · exact ih hp' (List.nodup_cons.mp hn).2 _

theorem seqEvts_terminal_mem (P : FanCtx) (w : Bool) {l : List Page} {p : Page}
    (hp : p ∈ l) : ∀ cnt, terminalEvt P p ∈ seqEvts P w l cnt := by
  induction l with
  | nil => cases hp
  | cons q rest ih =>
    intro cnt
    rcases List.mem_cons.mp hp with rfl | hp'
    · cases h : fanOutcome P p with
      | ok i f d => simp [seqEvts, h, terminalEvt]
      | err i m => simp [seqEvts, h, terminalEvt]
    · cases h : fanOutcome P q with
      | ok i f d => simp [seqEvts, h, ih hp']
      | err i m => simp [seqEvts, h, ih hp']

theorem seqEvts_shape (P : FanCtx) (w : Bool) (l : List Page) :
    ∀ cnt, ∀ e ∈ seqEvts P w l cnt,
      e.isCoverPhase = false ∧ e.isFinish = false ∧ e.pageIndex?.isSome = true
        ∧ (e.isContentGenerating = true ∨ e.isContentTerminal = true) := by
  induction l with
  | nil => intro cnt e he; cases he
  | cons q rest ih =>
    intro cnt e he
    cases h : fanOutcome P q with
    | ok i f d =>
      rw [seqEvts] at he
      simp only [h] at he
      rcases List.mem_append.mp he with hw | hw
      · obtain ⟨-, hw1⟩ := List.mem_ite_nil_right.mp hw
        rcases List.mem_singleton.mp hw1 with rfl
        simp [Event.isCoverPhase, Event.isFinish, Event.pageIndex?, Event.isContentGenerating]
      · rcases List.mem_cons.mp hw with rfl | hw'
        · simp [Event.isCoverPhase, Event.isFinish, Event.pageIndex?,
            Event.isContentTerminal]
        · exact ih _ e hw'
    | err i m =>
      rw [seqEvts] at he
      simp only [h] at he
      rcases List.mem_append.mp he with hw | hw
      · obtain ⟨-, hw1⟩ := List.mem_ite_nil_right.mp hw
        rcases List.mem_singleton.mp hw1 with rfl
        simp [Event.isCoverPhase, Event.isFinish, Event.pageIndex?, Event.isContentGenerating]
      · rcases List.mem_cons.mp hw with rfl | hw'
        · simp [Event.isCoverPhase, Event.isFinish, Event.pageIndex?,
            Event.isContentTerminal]
        · exact ih _ e hw'

theorem seqEvts_terminal_only (P : FanCtx) (l : List Page) :
    ∀ cnt, ∀ e ∈ seqEvts P false l cnt, e.isContentTerminal = true := by
  induction l with
  | nil => intro cnt e he; cases he
  | cons q rest ih =>
    intro cnt e he
    cases h : fanOutcome P q with
    | ok i f d =>
      rw [seqEvts] at he
      simp only [h, if_neg (by simp : ¬ false = true)] at he
      rcases List.mem_cons.mp (by simpa using he) with rfl | hw'
      · simp [Event.isContentTerminal]
      · exact ih _ e hw'
    | err i m =>
      rw [seqEvts] at he
      simp only [h, if_neg (by simp : ¬ false = true)] at he
      rcases List.mem_cons.mp (by simpa using he) with rfl | hw'
      · simp [Event.isContentTerminal]
      · exact ih _ e hw'

theorem fanoutPhase_empty (P : FanCtx) {others : List Page} (arrival : List Page)
    (acc0 : FanAcc) (h0 : others.isEmpty = true) :
    fanoutPhase P others arrival acc0 = acc0 := by
  simp [fanoutPhase, h0]

theorem fanoutPhase_hc (P : FanCtx) {others : List Page} (arrival : List Page)
    (acc0 : FanAcc) (h0 : others.isEmpty = false) (hc : P.ctx.highConcurrency = true) :
    fanoutPhase P others arrival acc0
      = arrival.foldl (contentStep P false)
          { acc0 with
            events := acc0.events
              ++ [Event.batchStart ("开始并发生成 " ++ toString others.length ++ " 页内容...")
                    acc0.genImgs.length P.total]
              ++ others.map (fun p => Event.progressContent p.index (acc0.genImgs.length + 1) P.total) } := by
  simp [fanoutPhase, h0, hc]

theorem fanoutPhase_seq (P : FanCtx) {others : List Page} (arrival : List Page)
    (acc0 : FanAcc) (h0 : others.isEmpty = false) (hc : P.ctx.highConcurrency = false) :
    fanoutPhase P others arrival acc0
      = others.foldl (contentStep P true)
          { acc0 with
            events := acc0.events
              ++ [Event.batchStart ("开始顺序生成 " ++ toString others.length ++ " 页内容...")
                    acc0.genImgs.length P.total] } := by
  simp [fanoutPhase, h0, hc]

theorem fanOrder_empty (P : FanCtx) {others : List Page} (arrival : List Page)
    (h0 : others.isEmpty = true) : fanOrder P others arrival = [] := by
  simp [fanOrder, h0]

theorem fanOrder_hc (P : FanCtx) {others : List Page} (arrival : List Page)
    (h0 : others.isEmpty = false) (hc : P.ctx.highConcurrency = true) :
    fanOrder P others arrival = arrival := by
  simp [fanOrder, h0, hc]

theorem fanOrder_seq (P : FanCtx) {others : List Page} (arrival : List Page)
    (h0 : others.isEmpty = false) (hc : P.ctx.highConcurrency = false) :
    fanOrder P others arrival = others := by
  simp [fanOrder, h0, hc]

theorem fanPhaseEvts_empty (P : FanCtx) {others : List Page} (arrival : List Page)
    (cnt : Nat) (h0 : others.isEmpty = true) : fanPhaseEvts P others arrival cnt = [] := by
  simp [fanPhaseEvts, h0]

theorem fanPhaseEvts_hc (P : FanCtx) {others : List Page} (arrival : List Page)
    (cnt : Nat) (h0 : others.isEmpty = false) (hc : P.ctx.highConcurrency = true) :
    fanPhaseEvts P others arrival cnt
      = Event.batchStart ("开始并发生成 " ++ toString others.length ++ " 页内容...") cnt P.total
          :: (others.map (fun p => Event.progressContent p.index (cnt + 1) P.total)
              ++ seqEvts P false arrival cnt) := by
  simp [fanPhaseEvts, h0, hc]

theorem fanPhaseEvts_seq (P : FanCtx) {others : List Page} (arrival : List Page)
    (cnt : Nat) (h0 : others.isEmpty = false) (hc : P.ctx.highConcurrency = false) :
    fanPhaseEvts P others arrival cnt
      = Event.batchStart ("开始顺序生成 " ++ toString others.length ++ " 页内容...") cnt P.total
          :: seqEvts P true others cnt := by
  simp [fanPhaseEvts, h0, hc]

theorem fanoutPhase_events (P : FanCtx) (others arrival : List Page) (acc0 : FanAcc) :
    (fanoutPhase P others arrival acc0).events
      = acc0.events ++ fanPhaseEvts P others arrival acc0.genImgs.length := by
  cases h0 : others.isEmpty with
  | true => simp [fanoutPhase_empty P arrival acc0 h0, fanPhaseEvts, h0]
  | false =>
    cases hc : P.ctx.highConcurrency with
    | true =>
      rw [fanoutPhase_hc P arrival acc0 h0 hc, foldl_contentStep_events]
      simp [fanPhaseEvts, h0, hc, List.append_assoc]
    | false =>
      rw [fanoutPhase_seq P arrival acc0 h0 hc, foldl_contentStep_events]
      simp [fanPhaseEvts, h0, hc, List.append_assoc]

theorem fanoutPhase_genImgs (P : FanCtx) (others arrival : List Page) (acc0 : FanAcc) :
    (fanoutPhase P others arrival acc0).genImgs
      = acc0.genImgs ++ ((fanOrder P others arrival).filter (okP P)).map fnameOf := by
  cases h0 : others.isEmpty with
  | true => simp [fanoutPhase_empty P arrival acc0 h0, fanOrder_empty P arrival h0]
  | false =>
    cases hc : P.ctx.highConcurrency with
    | true =>
      rw [fanoutPhase_hc P arrival acc0 h0 hc, foldl_contentStep_genImgs,
        fanOrder_hc P arrival h0 hc]
    | false =>
      rw [fanoutPhase_seq P arrival acc0 h0 hc, foldl_contentStep_genImgs,
        fanOrder_seq P arrival h0 hc]

theorem fanoutPhase_failedPages (P : FanCtx) (others arrival : List Page) (acc0 : FanAcc) :
    (fanoutPhase P others arrival acc0).failedPages
      = acc0.failedPages ++ (fanOrder P others arrival).filter (fun p => !okP P p) := by
  cases h0 : others.isEmpty with
  | true => simp [fanoutPhase_empty P arrival acc0 h0, fanOrder_empty P arrival h0]
  | false =>
    cases hc : P.ctx.highConcurrency with
    | true =>
      rw [fanoutPhase_hc P arrival acc0 h0 hc, foldl_contentStep_failedPages,
        fanOrder_hc P arrival h0 hc]
    | false =>
      rw [fanoutPhase_seq P arrival acc0 h0 hc, foldl_contentStep_failedPages,
        fanOrder_seq P arrival h0 hc]

theorem fanoutPhase_gen_dmem (P : FanCtx) (others arrival : List Page) (acc0 : FanAcc)
    (k : Nat) :
    (dmem k (fanoutPhase P others arrival acc0).gen = true
      ↔ dmem k acc0.gen = true
        ∨ ∃ p ∈ fanOrder P others arrival, okP P p = true ∧ p.index = k) := by
  cases h0 : others.isEmpty with
  | true => simp [fanoutPhase_empty P arrival acc0 h0, fanOrder_empty P arrival h0]
  | false =>
    cases hc : P.ctx.highConcurrency with
    | true =>
      rw [fanoutPhase_hc P arrival acc0 h0 hc, fanOrder_hc P arrival h0 hc]
      rw [foldl_contentStep_gen_dmem]
    | false =>
      rw [fanoutPhase_seq P arrival acc0 h0 hc, fanOrder_seq P arrival h0 hc]
      rw [foldl_contentStep_gen_dmem]

theorem fanoutPhase_fail_dmem (P : FanCtx) (others arrival : List Page) (acc0 : FanAcc)
    (k : Nat) :
    (dmem k (fanoutPhase P others arrival acc0).fail = true
      ↔ dmem k acc0.fail = true
        ∨ ∃ p ∈ fanOrder P others arrival, okP P p = false ∧ p.index = k) := by
  cases h0 : others.isEmpty with
  | true => simp [fanoutPhase_empty P arrival acc0 h0, fanOrder_empty P arrival h0]
  | false =>
    cases hc : P.ctx.highConcurrency with
    | true =>
      rw [fanoutPhase_hc P arrival acc0 h0 hc, fanOrder_hc P arrival h0 hc]
      rw [foldl_contentStep_fail_dmem]
    | false =>
      rw [fanoutPhase_seq P arrival acc0 h0 hc, fanOrder_seq P arrival h0 hc]
      rw [foldl_contentStep_fail_dmem]

theorem fanoutPhase_fail_dlookup_stable (P : FanCtx) (others arrival : List Page)
    (acc0 : FanAcc) (k : Nat) (h : ∀ p ∈ fanOrder P others arrival, p.index ≠ k) :
    dlookup k (fanoutPhase P others arrival acc0).fail = dlookup k acc0.fail := by
  cases h0 : others.isEmpty with
  | true => simp [fanoutPhase_empty P arrival acc0 h0]
  | false =>
    cases hc : P.ctx.highConcurrency with
    | true =>
      rw [fanOrder_hc P arrival h0 hc] at h
      rw [fanoutPhase_hc P arrival acc0 h0 hc]
      rw [foldl_contentStep_fail_dlookup_stable P false arrival k h]
    | false =>
      rw [fanOrder_seq P arrival h0 hc] at h
      rw [fanoutPhase_seq P arrival acc0 h0 hc]
      rw [foldl_contentStep_fail_dlookup_stable P true others k h]

theorem fanoutPhase_fail_dlookup_mem (P : FanCtx) (others arrival : List Page)
    (acc0 : FanAcc) {p : Page} {m : String}
    (hp : p ∈ fanOrder P others arrival)
    (hn : ((fanOrder P others arrival).map Page.index).Nodup)
    (hm : fanOutcome P p = .err p.index m) :
    dlookup p.index (fanoutPhase P others arrival acc0).fail = some m := by
  cases h0 : others.isEmpty with
  | true =>
    rw [fanOrder_empty P arrival h0] at hp
    cases hp
  | false =>
    cases hc : P.ctx.highConcurrency with
    | true =>
      rw [fanOrder_hc P arrival h0 hc] at hp hn
      rw [fanoutPhase_hc P arrival acc0 h0 hc]
      exact foldl_contentStep_fail_dlookup_mem P false hp hn hm _
    | false =>
      rw [fanOrder_seq P arrival h0 hc] at hp hn
      rw [fanoutPhase_seq P arrival acc0 h0 hc]
      exact foldl_contentStep_fail_dlookup_mem P true hp hn hm _

theorem fanoutPhase_terminal_mem (P : FanCtx) (others arrival : List Page)
    (acc0 : FanAcc) {p : Page} (hp : p ∈ fanOrder P others arrival) :
    terminalEvt P p ∈ (fanoutPhase P others arrival acc0).events := by
  rw [fanoutPhase_events]
  rw [fanPhaseEvts]
  cases h0 : others.isEmpty with
  | true =>
    rw [fanOrder_empty P arrival h0] at hp
    cases hp
  | false =>
    cases hc : P.ctx.highConcurrency with
    | true =>
      rw [fanOrder_hc P arrival h0 hc] at hp
      have := seqEvts_terminal_mem P false hp acc0.genImgs.length
      simp [h0, hc, this]
    | false =>
      rw [fanOrder_seq P arrival h0 hc] at hp
      have := seqEvts_terminal_mem P true hp acc0.genImgs.length
      simp [h0, hc, this]

theorem fanPhaseEvts_shape (P : FanCtx) (others arrival : List Page) (cnt : Nat) :
    ∀ e ∈ fanPhaseEvts P others arrival cnt,
      e.isCoverPhase = false ∧ e.isFinish = false := by
  intro e he
  rw [fanPhaseEvts] at he
  by_cases h0 : others.isEmpty
  · simp [h0] at he
  · by_cases hc : P.ctx.highConcurrency
    · simp only [h0, hc, if_false, if_true] at he
      rcases List.mem_cons.mp he with rfl | he'
      · simp [Event.isCoverPhase, Event.isFinish]
      · rcases List.mem_append.mp he' with hw | hw
        · rcases List.mem_map.mp hw with ⟨q, _, rfl⟩
          simp [Event.isCoverPhase, Event.isFinish]
        · have := seqEvts_shape P false arrival cnt e hw
          exact ⟨this.1, this.2.1⟩
    · simp only [h0, hc, if_false] at he
      rcases List.mem_cons.mp he with rfl | he'
      · simp [Event.isCoverPhase, Event.isFinish]
      · have := seqEvts_shape P true others cnt e he'
        exact ⟨this.1, this.2.1⟩

theorem seqEvts_index_mem (P : FanCtx) (w : Bool) (l : List Page) :
    ∀ cnt, ∀ e ∈ seqEvts P w l cnt, ∀ i, e.pageIndex? = some i → i ∈ l.map Page.index := by
  induction l with
  | nil => intro cnt e he; cases he
  | cons q rest ih =>
    intro cnt e he i hi
    cases h : fanOutcome P q with
    | ok i0 f d =>
      rw [seqEvts] at he
      simp only [h] at he
      rcases List.mem_append.mp he with hw | hw
      · obtain ⟨-, hw1⟩ := List.mem_ite_nil_right.mp hw
        rcases List.mem_singleton.mp hw1 with rfl
        simp [Event.pageIndex?] at hi
        simp [← hi]
      · rcases List.mem_cons.mp hw with rfl | hw'
        · have := (fanOutcome_ok_eq h).1
          simp [Event.pageIndex?] at hi
          simp [← hi, ← this]
        · exact List.mem_cons_of_mem _ (ih _ e hw' i hi)
    | err i0 m =>
      rw [seqEvts] at he
      simp only [h] at he
      rcases List.mem_append.mp he with hw | hw
      · obtain ⟨-, hw1⟩ := List.mem_ite_nil_right.mp hw
        rcases List.mem_singleton.mp hw1 with rfl
        simp [Event.pageIndex?] at hi
        simp [← hi]
      · rcases List.mem_cons.mp hw with rfl | hw'
        · have := fanOutcome_err_eq h
          simp [Event.pageIndex?] at hi
          simp [← hi, ← this]
        · exact List.mem_cons_of_mem _ (ih _ e hw' i hi)

theorem fanPhaseEvts_index_mem (P : FanCtx) (others arrival : List Page) (cnt : Nat)
    (e : Event) (he : e ∈ fanPhaseEvts P others arrival cnt) (i : Nat)
    (hi : e.pageIndex? = some i) :
    i ∈ others.map Page.index ∨ i ∈ arrival.map Page.index := by
  rw [fanPhaseEvts] at he
  by_cases h0 : others.isEmpty
  · simp [h0] at he
  · by_cases hc : P.ctx.highConcurrency
    · simp only [h0, hc, if_false, if_true] at he
      rcases List.mem_cons.mp he with rfl | he'
      · simp [Event.pageIndex?] at hi
      · rcases List.mem_append.mp he' with hw | hw
        · rcases List.mem_map.mp hw with ⟨q, hq, rfl⟩
          simp [Event.pageIndex?] at hi
          exact Or.inl (hi ▸ List.mem_map_of_mem Page.index hq)
        · exact Or.inr (seqEvts_index_mem P false arrival cnt e hw i hi)
    · simp only [h0, hc, if_false] at he
      rcases List.mem_cons.mp he with rfl | he'
      · simp [Event.pageIndex?] at hi
      · exact Or.inl (seqEvts_index_mem P true others cnt e he' i hi)

/-! ### Properties of the cover selection -/

theorem selectCover_none {pages : List Page} (h : (selectCover pages).1 = none) :
    pages = [] := by
  rw [selectCover.eq_def] at h
  cases hl : (pages.filter (fun p => p.type = "cover")).getLast? with
  | some c => rw [hl] at h; cases h
  | none =>
    rw [hl] at h
    cases pages with
    | nil => rfl
    | cons p rest => cases h

theorem selectCover_fst_mem {pages : List Page} {c : Page}
    (h : (selectCover pages).1 = some c) : c ∈ pages := by
  rw [selectCover.eq_def] at h
  cases hl : (pages.filter (fun p => p.type = "cover")).getLast? with
  | some c' =>
    rw [hl] at h
    cases h
    exact List.mem_of_mem_filter (List.mem_of_mem_getLast? hl)
  | none =>
    rw [hl] at h
    cases pages with
    | nil => cases h
    | cons p rest =>
      cases h
      exact List.mem_cons_self _ _

theorem selectCover_snd_sublist (pages : List Page) :
    (selectCover pages).2.Sublist pages := by
  rw [selectCover.eq_def]
  cases hl : (pages.filter (fun p => p.type = "cover")).getLast? with
  | some c => exact List.filter_sublist _
  | none =>
    cases pages with
    | nil => exact List.Sublist.refl _
    | cons p rest => exact List.sublist_cons_self p rest

theorem selectCover_index_not_mem {pages : List Page} {c : Page}
    (hn : (pages.map Page.index).Nodup) (h : (selectCover pages).1 = some c) :
    c.index ∉ (selectCover pages).2.map Page.index := by
  rw [selectCover.eq_def] at h ⊢
  cases hl : (pages.filter (fun p => p.type = "cover")).getLast? with
  | some c' =>
    rw [hl] at h
    cases h
    simp only
    intro hmem
    rcases List.mem_map.mp hmem with ⟨q, hq, hqi⟩
    have hqmem := List.mem_of_mem_filter hq
    have hqprop : ¬ q.type = "cover" := by
      have := List.of_mem_filter hq
      simpa using this
    have hcmem := List.mem_of_mem_filter (List.mem_of_mem_getLast? hl)
    have hcprop : c.type = "cover" := by
      have := List.of_mem_filter (List.mem_of_mem_getLast? hl)
      simpa using this
    have := List.inj_on_of_nodup_map hn hqmem hcmem hqi
    rw [this] at hqprop
    exact hqprop hcprop
  | none =>
    rw [hl] at h
    cases pages with
    | nil => cases h
    | cons p rest =>
      cases h
      simp only
      rw [List.map_cons, List.nodup_cons] at hn
      exact hn.1

theorem selectCover_snd_nodup {pages : List Page}
    (hn : (pages.map Page.index).Nodup) :
    ((selectCover pages).2.map Page.index).Nodup :=
  ((selectCover_snd_sublist pages).map Page.index).nodup hn

theorem filter_cover_length (pages : List Page) :
    (pages.filter (fun p => ¬ p.type = "cover")).length
      + (pages.filter (fun p => p.type = "cover")).length = pages.length := by
  induction pages with
  | nil => simp
  | cons p rest ih =>
    simp only [decide_not] at ih ⊢
    by_cases h : p.type = "cover" <;> simp [List.filter_cons, h] <;> omega

/-- With at most one cover-typed page and a non-empty page list, no page is
dropped: the cover plus the fan-out pages count up to the submitted total. -/
theorem selectCover_length_eq {pages : List Page} {c : Page}
    (h : (selectCover pages).1 = some c)
    (hle : (pages.filter (fun p => p.type = "cover")).length ≤ 1) :
    (selectCover pages).2.length + 1 = pages.length := by
  rw [selectCover.eq_def] at h ⊢
  cases hl : (pages.filter (fun p => p.type = "cover")).getLast? with
  | some c' =>
    rw [hl] at h
    simp only
    have hne : pages.filter (fun p => p.type = "cover") ≠ [] := by
      intro hnil
      rw [hnil] at hl
      cases hl
    have h1 : 1 ≤ (pages.filter (fun p => p.type = "cover")).length :=
      Nat.one_le_iff_ne_zero.mpr (fun hz => hne (List.length_eq_zero.mp hz))
    have := filter_cover_length pages
    omega
  | none =>
    rw [hl] at h
    cases pages with
    | nil => cases h
    | cons p rest => simp

/-- With at least two cover-typed pages, at least one submitted page is
dropped: cover plus fan-out is strictly below the total. -/
theorem selectCover_length_lt {pages : List Page}
    (h2 : 2 ≤ (pages.filter (fun p => p.type = "cover")).length) :
    (selectCover pages).2.length + 2 ≤ pages.length := by
  rw [selectCover.eq_def]
  cases hl : (pages.filter (fun p => p.type = "cover")).getLast? with
  | none =>
    exfalso
    rw [List.getLast?_eq_none_iff] at hl
    rw [hl] at h2
    simp at h2
  | some c =>
    simp only
    have := filter_cover_length pages
    omega

section RunAnatomyEq

variable (ctx : Ctx) (oracle : ProviderCall → Except String Bytes) (compress : Bytes → Bytes)
  (pages : List Page) (taskId : String) (fullOutline : String)
  (userImages : Option (List Bytes)) (userTopic : String) (activeBrand : Option String)
  (arrival : List Page)

theorem generate_images_eq :
    generate_images ctx oracle compress pages taskId fullOutline userImages userTopic
        activeBrand arrival
      = ((runAccF ctx oracle compress pages taskId fullOutline userImages userTopic activeBrand arrival).events
           ++ [runFin ctx oracle compress pages taskId fullOutline userImages userTopic activeBrand arrival],
         { (runCP ctx oracle compress pages taskId fullOutline userImages userTopic activeBrand).2.1 with
           generated := (runAccF ctx oracle compress pages taskId fullOutline userImages userTopic activeBrand arrival).gen,
           failed := (runAccF ctx oracle compress pages taskId fullOutline userImages userTopic activeBrand arrival).fail }) :=
  rfl

end RunAnatomyEq

/-! ### Ordering helper lemmas -/

theorem contentGenAnnouncedFirst_append_left (xs ys : List Event)
    (h : ∀ e ∈ xs, e.isContentTerminal = false) :
    contentGenAnnouncedFirst (xs ++ ys) = contentGenAnnouncedFirst ys := by
  induction xs with
  | nil => simp
  | cons x xs' ih =>
    rw [List.cons_append, contentGenAnnouncedFirst]
    rw [h x (List.mem_cons_self x xs')]
    simp only [Bool.false_eq_true, if_false]
    exact ih (fun e he => h e (List.mem_cons_of_mem x he))

theorem contentGenAnnouncedFirst_of_all (evs : List Event)
    (h : ∀ e ∈ evs, e.isContentGenerating = false) :
    contentGenAnnouncedFirst evs = true := by
  induction evs with
  | nil => rfl
  | cons e rest ih =>
    rw [contentGenAnnouncedFirst]
    by_cases ht : e.isContentTerminal = true
    · rw [if_pos ht]
      rw [List.all_eq_true]
      intro x hx
      rw [h x (List.mem_cons_of_mem e hx)]
      rfl
    · rw [if_neg ht]
      exact ih (fun x hx => h x (List.mem_cons_of_mem e hx))

theorem coverEventsFirst_of (xs ys : List Event)
    (h1 : ∀ e ∈ xs, e.isCoverPhase = true) (h2 : ∀ e ∈ ys, e.isCoverPhase = false) :
    coverEventsFirst (xs ++ ys) = true := by
  induction xs with
  | nil =>
    rw [List.nil_append, coverEventsFirst, List.all_eq_true]
    intro e he
    have : e ∈ ys := List.Sublist.mem he (List.dropWhile_sublist _)
    rw [h2 e this]
    rfl
  | cons x xs' ih =>
    rw [List.cons_append, coverEventsFirst, List.dropWhile_cons]
    rw [h1 x (List.mem_cons_self x xs')]
    simp only [if_pos]
    exact ih (fun e he => h1 e (List.mem_cons_of_mem x he))

theorem finishLast_concat (xs : List Event) (e : Event) (h : e.isFinish = true) :
    finishLast (xs ++ [e]) = true := by
  rw [finishLast, List.getLast?_concat]
  exact h

/-! ### Cover-phase view -/

theorem genSingle_shape (ctx : Ctx) (oracle : ProviderCall → Except String Bytes)
    (page : Page) (reference : Option Bytes) (fullOutline : String)
    (userImages : Option (List Bytes)) (userTopic : String) (brandStyle : Option String) :
    (∃ d, genSingle ctx oracle page reference fullOutline userImages userTopic brandStyle
        = .ok page.index (fnameOf page) d)
    ∨ (∃ m, genSingle ctx oracle page reference fullOutline userImages userTopic brandStyle
        = .err page.index m) := by
  cases h : oracle (mkCall ctx (buildPrompt ctx brandStyle page fullOutline userTopic)
      reference userImages) with
  | ok d => exact Or.inl ⟨d, by simp [genSingle, h]⟩
  | error e => exact Or.inr ⟨e, by simp [genSingle, h]⟩

section CoverViewLemmas

variable (ctx : Ctx) (oracle : ProviderCall → Except String Bytes) (compress : Bytes → Bytes)
  (pages : List Page) (taskId : String) (fullOutline : String)
  (userImages : Option (List Bytes)) (userTopic : String) (activeBrand : Option String)

theorem runCP_proj :
    (runCP ctx oracle compress pages taskId fullOutline userImages userTopic activeBrand).1
        = coverEvts ctx oracle compress pages taskId fullOutline userImages userTopic activeBrand
      ∧ (runCP ctx oracle compress pages taskId fullOutline userImages userTopic activeBrand).2.2.1
        = coverOkImgs ctx oracle compress pages fullOutline userImages userTopic activeBrand
      ∧ (runCP ctx oracle compress pages taskId fullOutline userImages userTopic activeBrand).2.2.2.1
        = coverFailPages ctx oracle compress pages fullOutline userImages userTopic activeBrand
      ∧ (runCP ctx oracle compress pages taskId fullOutline userImages userTopic activeBrand).2.2.2.2
        = coverRefOf ctx oracle compress pages fullOutline userImages userTopic activeBrand
      ∧ (runCP ctx oracle compress pages taskId fullOutline userImages userTopic activeBrand).2.1.generated
        = coverGenMap ctx oracle compress pages fullOutline userImages userTopic activeBrand
      ∧ (runCP ctx oracle compress pages taskId fullOutline userImages userTopic activeBrand).2.1.failed
        = coverFailMap ctx oracle compress pages fullOutline userImages userTopic activeBrand
      ∧ (runCP ctx oracle compress pages taskId fullOutline userImages userTopic activeBrand).2.1.pages
        = pages
      ∧ (runCP ctx oracle compress pages taskId fullOutline userImages userTopic activeBrand).2.1.cover_image
        = coverRefOf ctx oracle compress pages fullOutline userImages userTopic activeBrand := by
  rw [runCP]
  cases hsel : (selectCover pages).1 with
  | none => simp [coverPhase, coverEvts, coverOkImgs, coverFailPages, coverRefOf,
      coverGenMap, coverFailMap, coverRes, hsel, runTs0]
  | some c =>
    cases hg : genSingle ctx oracle c none fullOutline
        (compressUserImages compress userImages) userTopic activeBrand with
    | ok i f d =>
      simp [coverPhase, coverEvts, coverOkImgs, coverFailPages, coverRefOf,
        coverGenMap, coverFailMap, coverRes, hsel, hg, runTs0, dinsert]
    | err i m =>
      simp [coverPhase, coverEvts, coverOkImgs, coverFailPages, coverRefOf,
        coverGenMap, coverFailMap, coverRes, hsel, hg, runTs0, dinsert]

theorem coverEvts_shape :
    ∀ e ∈ coverEvts ctx oracle compress pages taskId fullOutline userImages userTopic activeBrand,
      e.isCoverPhase = true ∧ e.isFinish = false := by
  intro e he
  rw [coverEvts.eq_def] at he
  rcases hcr : coverRes ctx oracle compress pages fullOutline userImages userTopic activeBrand
      with - | ⟨c, (r | r)⟩ <;> rw [hcr] at he
  · cases he
  · rcases List.mem_cons.mp he with rfl | he'
    · simp [Event.isCoverPhase, Event.isFinish]
    · rcases List.mem_singleton.mp (by simpa using he') with rfl
      simp [Event.isCoverPhase, Event.isFinish]
  · rcases List.mem_cons.mp he with rfl | he'
    · simp [Event.isCoverPhase, Event.isFinish]
    · rcases List.mem_singleton.mp (by simpa using he') with rfl
      simp [Event.isCoverPhase, Event.isFinish]

end CoverViewLemmas

section AccLiteral

variable (P : FanCtx) (others arrival : List Page) (e : List Event) (g : List String)
  (fp : List Page) (gn fl : List (Nat × String))

theorem fanoutPhase_events_mk :
    (fanoutPhase P others arrival ⟨e, g, fp, gn, fl⟩).events
      = e ++ fanPhaseEvts P others arrival g.length := by
  simpa using fanoutPhase_events P others arrival ⟨e, g, fp, gn, fl⟩

theorem fanoutPhase_genImgs_mk :
    (fanoutPhase P others arrival ⟨e, g, fp, gn, fl⟩).genImgs
      = g ++ ((fanOrder P others arrival).filter (okP P)).map fnameOf := by
  simpa using fanoutPhase_genImgs P others arrival ⟨e, g, fp, gn, fl⟩

theorem fanoutPhase_failedPages_mk :
    (fanoutPhase P others arrival ⟨e, g, fp, gn, fl⟩).failedPages
      = fp ++ (fanOrder P others arrival).filter (fun p => !okP P p) := by
  simpa using fanoutPhase_failedPages P others arrival ⟨e, g, fp, gn, fl⟩

theorem fanoutPhase_gen_dmem_mk (k : Nat) :
    (dmem k (fanoutPhase P others arrival ⟨e, g, fp, gn, fl⟩).gen = true
      ↔ dmem k gn = true ∨ ∃ p ∈ fanOrder P others arrival, okP P p = true ∧ p.index = k) := by
  simpa using fanoutPhase_gen_dmem P others arrival ⟨e, g, fp, gn, fl⟩ k

theorem fanoutPhase_fail_dmem_mk (k : Nat) :
    (dmem k (fanoutPhase P others arrival ⟨e, g, fp, gn, fl⟩).fail = true
      ↔ dmem k fl = true ∨ ∃ p ∈ fanOrder P others arrival, okP P p = false ∧ p.index = k) := by
  simpa using fanoutPhase_fail_dmem P others arrival ⟨e, g, fp, gn, fl⟩ k

theorem fanoutPhase_fail_dlookup_stable_mk (k : Nat)
    (h : ∀ p ∈ fanOrder P others arrival, p.index ≠ k) :
    dlookup k (fanoutPhase P others arrival ⟨e, g, fp, gn, fl⟩).fail = dlookup k fl := by
  simpa using fanoutPhase_fail_dlookup_stable P others arrival ⟨e, g, fp, gn, fl⟩ k h

theorem fanoutPhase_fail_dlookup_mem_mk {p : Page} {m : String}
    (hp : p ∈ fanOrder P others arrival)
    (hn : ((fanOrder P others arrival).map Page.index).Nodup)
    (hm : fanOutcome P p = .err p.index m) :
    dlookup p.index (fanoutPhase P others arrival ⟨e, g, fp, gn, fl⟩).fail = some m :=
  fanoutPhase_fail_dlookup_mem P others arrival ⟨e, g, fp, gn, fl⟩ hp hn hm

theorem fanoutPhase_terminal_mem_mk {p : Page} (hp : p ∈ fanOrder P others arrival) :
    terminalEvt P p ∈ (fanoutPhase P others arrival ⟨e, g, fp, gn, fl⟩).events :=
  fanoutPhase_terminal_mem P others arrival ⟨e, g, fp, gn, fl⟩ hp

end AccLiteral

section RunAccView

variable (ctx : Ctx) (oracle : ProviderCall → Except String Bytes) (compress : Bytes → Bytes)
  (pages : List Page) (taskId : String) (fullOutline : String)
  (userImages : Option (List Bytes)) (userTopic : String) (activeBrand : Option String)
  (arrival : List Page)

theorem runAccF_events :
    (runAccF ctx oracle compress pages taskId fullOutline userImages userTopic activeBrand arrival).events
      = coverEvts ctx oracle compress pages taskId fullOutline userImages userTopic activeBrand
        ++ fanPhaseEvts (runP ctx oracle compress pages taskId fullOutline userImages userTopic activeBrand)
            (selectCover pages).2 arrival
            (coverOkImgs ctx oracle compress pages fullOutline userImages userTopic activeBrand).length := by
  obtain ⟨hev, hgi, -, -, -, -, -, -⟩ :=
    runCP_proj ctx oracle compress pages taskId fullOutline userImages userTopic activeBrand
  rw [runAccF, fanoutPhase_events_mk, hev, hgi]

theorem runAccF_genImgs :
    (runAccF ctx oracle compress pages taskId fullOutline userImages userTopic activeBrand arrival).genImgs
      = coverOkImgs ctx oracle compress pages fullOutline userImages userTopic activeBrand
        ++ ((fanOrder (runP ctx oracle compress pages taskId fullOutline userImages userTopic activeBrand)
              (selectCover pages).2 arrival).filter
            (okP (runP ctx oracle compress pages taskId fullOutline userImages userTopic activeBrand))).map fnameOf := by
  obtain ⟨-, hgi, -, -, -, -, -, -⟩ :=
    runCP_proj ctx oracle compress pages taskId fullOutline userImages userTopic activeBrand
  rw [runAccF, fanoutPhase_genImgs_mk, hgi]

theorem runAccF_failedPages :
    (runAccF ctx oracle compress pages taskId fullOutline userImages userTopic activeBrand arrival).failedPages
      = coverFailPages ctx oracle compress pages fullOutline userImages userTopic activeBrand
        ++ (fanOrder (runP ctx oracle compress pages taskId fullOutline userImages userTopic activeBrand)
              (selectCover pages).2 arrival).filter
            (fun p => !okP (runP ctx oracle compress pages taskId fullOutline userImages userTopic activeBrand) p) := by
  obtain ⟨-, -, hfp, -, -, -, -, -⟩ :=
    runCP_proj ctx oracle compress pages taskId fullOutline userImages userTopic activeBrand
  rw [runAccF, fanoutPhase_failedPages_mk, hfp]

theorem runAccF_gen_dmem (k : Nat) :
    (dmem k (runAccF ctx oracle compress pages taskId fullOutline userImages userTopic activeBrand arrival).gen = true
      ↔ dmem k (coverGenMap ctx oracle compress pages fullOutline userImages userTopic activeBrand) = true
        ∨ ∃ p ∈ fanOrder (runP ctx oracle compress pages taskId fullOutline userImages userTopic activeBrand)
              (selectCover pages).2 arrival,
            okP (runP ctx oracle compress pages taskId fullOutline userImages userTopic activeBrand) p = true
              ∧ p.index = k) := by
  obtain ⟨-, -, -, -, hgen, -, -, -⟩ :=
    runCP_proj ctx oracle compress pages taskId fullOutline userImages userTopic activeBrand
  rw [runAccF, fanoutPhase_gen_dmem_mk, hgen]

theorem runAccF_fail_dmem (k : Nat) :
    (dmem k (runAccF ctx oracle compress pages taskId fullOutline userImages userTopic activeBrand arrival).fail = true
      ↔ dmem k (coverFailMap ctx oracle compress pages fullOutline userImages userTopic activeBrand) = true
        ∨ ∃ p ∈ fanOrder (runP ctx oracle compress pages taskId fullOutline userImages userTopic activeBrand)
              (selectCover pages).2 arrival,
            okP (runP ctx oracle compress pages taskId fullOutline userImages userTopic activeBrand) p = false
              ∧ p.index = k) := by
  obtain ⟨-, -, -, -, -, hfail, -, -⟩ :=
    runCP_proj ctx oracle compress pages taskId fullOutline userImages userTopic activeBrand
  rw [runAccF, fanoutPhase_fail_dmem_mk, hfail]

theorem runAccF_fail_dlookup_stable (k : Nat)
    (h : ∀ p ∈ fanOrder (runP ctx oracle compress pages taskId fullOutline userImages userTopic activeBrand)
        (selectCover pages).2 arrival, p.index ≠ k) :
    dlookup k (runAccF ctx oracle compress pages taskId fullOutline userImages userTopic activeBrand arrival).fail
      = dlookup k (coverFailMap ctx oracle compress pages fullOutline userImages userTopic activeBrand) := by
  obtain ⟨-, -, -, -, -, hfail, -, -⟩ :=
    runCP_proj ctx oracle compress pages taskId fullOutline userImages userTopic activeBrand
  rw [runAccF, fanoutPhase_fail_dlookup_stable_mk _ _ _ _ _ _ _ _ k h, hfail]

theorem runAccF_fail_dlookup_mem {p : Page} {m : String}
    (hp : p ∈ fanOrder (runP ctx oracle compress pages taskId fullOutline userImages userTopic activeBrand)
        (selectCover pages).2 arrival)
    (hn : ((fanOrder (runP ctx oracle compress pages taskId fullOutline userImages userTopic activeBrand)
        (selectCover pages).2 arrival).map Page.index).Nodup)
    (hm : fanOutcome (runP ctx oracle compress pages taskId fullOutline userImages userTopic activeBrand) p
        = .err p.index m) :
    dlookup p.index
        (runAccF ctx oracle compress pages taskId fullOutline userImages userTopic activeBrand arrival).fail
      = some m := by
  rw [runAccF]
  exact fanoutPhase_fail_dlookup_mem _ _ _ _ hp hn hm

theorem runAccF_terminal_mem {p : Page}
    (hp : p ∈ fanOrder (runP ctx oracle compress pages taskId fullOutline userImages userTopic activeBrand)
        (selectCover pages).2 arrival) :
    terminalEvt (runP ctx oracle compress pages taskId fullOutline userImages userTopic activeBrand) p
      ∈ (runAccF ctx oracle compress pages taskId fullOutline userImages userTopic activeBrand arrival).events := by
  rw [runAccF]
  exact fanoutPhase_terminal_mem _ _ _ _ hp

end RunAccView

theorem fanOrder_perm (P : FanCtx) {others arrival : List Page}
    (harr : arrival.Perm others) : (fanOrder P others arrival).Perm others := by
  cases h0 : others.isEmpty with
  | true =>
    rw [fanOrder_empty P arrival h0, List.isEmpty_iff.mp h0]
  | false =>
    cases hc : P.ctx.highConcurrency with
    | true => rw [fanOrder_hc P arrival h0 hc]; exact harr
    | false => rw [fanOrder_seq P arrival h0 hc]

theorem genSingle_ok_of_all_ok {ctx : Ctx} {oracle : ProviderCall → Except String Bytes}
    (hall : ∀ call, ∃ b, oracle call = .ok b) (page : Page) (reference : Option Bytes)
    (fullOutline : String) (userImages : Option (List Bytes)) (userTopic : String)
    (brandStyle : Option String) :
    ∃ d, genSingle ctx oracle page reference fullOutline userImages userTopic brandStyle
      = .ok page.index (fnameOf page) d := by
  obtain ⟨b, hb⟩ := hall (mkCall ctx (buildPrompt ctx brandStyle page fullOutline userTopic)
    reference userImages)
  exact ⟨b, by simp [genSingle, hb]⟩

theorem okP_of_all_ok {P : FanCtx} (hall : ∀ call, ∃ b, P.oracle call = .ok b) (p : Page) :
    okP P p = true := by
  obtain ⟨d, hd⟩ := genSingle_ok_of_all_ok hall p P.coverRef P.fullOutline P.userImages
    P.userTopic P.brandStyle
  have : fanOutcome P p = .ok p.index (fnameOf p) d := hd
  simp [okP, this, GenRes.isOk]

/-- C1: every `generate_images` run emits exactly one `finish` event, it is
the stream's last event, and its data fields are the run's summary: `success`
iff the failed-pages list is empty, `total` the number of submitted pages,
`completed` the number of pages whose generation succeeded (cover included),
`failed` the number of pages whose generation failed, and `failed_indices`
the failed pages' indices.  In particular, with at most one cover-typed page
and a provider call that always succeeds, `completed` equals the number of
submitted pages and `failed` is zero. -/
theorem finish_event_summary
    (ctx : Ctx) (oracle : ProviderCall → Except String Bytes) (compress : Bytes → Bytes)
    (pages : List Page) (taskId fullOutline : String) (userImages : Option (List Bytes))
    (userTopic : String) (activeBrand : Option String) (arrival : List Page)
    (harr : arrival.Perm (selectCover pages).2) :
    (generate_images ctx oracle compress pages taskId fullOutline userImages userTopic
          activeBrand arrival).1.filter Event.isFinish
      = [Event.finish
          ((coverFailPages ctx oracle compress pages fullOutline userImages userTopic activeBrand
            ++ (fanOrder (runP ctx oracle compress pages taskId fullOutline userImages userTopic activeBrand)
                  (selectCover pages).2 arrival).filter
                (fun p => !okP (runP ctx oracle compress pages taskId fullOutline userImages userTopic activeBrand) p)).isEmpty)
          taskId
          (coverOkImgs ctx oracle compress pages fullOutline userImages userTopic activeBrand
            ++ ((fanOrder (runP ctx oracle compress pages taskId fullOutline userImages userTopic activeBrand)
                  (selectCover pages).2 arrival).filter
                (okP (runP ctx oracle compress pages taskId fullOutline userImages userTopic activeBrand))).map fnameOf)
          pages.length
          ((coverOkImgs ctx oracle compress pages fullOutline userImages userTopic activeBrand).length
            + ((fanOrder (runP ctx oracle compress pages taskId fullOutline userImages userTopic activeBrand)
                  (selectCover pages).2 arrival).filter
                (okP (runP ctx oracle compress pages taskId fullOutline userImages userTopic activeBrand))).length)
          ((coverFailPages ctx oracle compress pages fullOutline userImages userTopic activeBrand).length
            + ((fanOrder (runP ctx oracle compress pages taskId fullOutline userImages userTopic activeBrand)
                  (selectCover pages).2 arrival).filter
                (fun p => !okP (runP ctx oracle compress pages taskId fullOutline userImages userTopic activeBrand) p)).length)
          ((coverFailPages ctx oracle compress pages fullOutline userImages userTopic activeBrand
            ++ (fanOrder (runP ctx oracle compress pages taskId fullOutline userImages userTopic activeBrand)
                  (selectCover pages).2 arrival).filter
                (fun p => !okP (runP ctx oracle compress pages taskId fullOutline userImages userTopic activeBrand) p)).map Page.index)]
    ∧ finishLast (generate_images ctx oracle compress pages taskId fullOutline userImages userTopic
          activeBrand arrival).1 = true
    ∧ ((fanOrder (runP ctx oracle compress pages taskId fullOutline userImages userTopic activeBrand)
          (selectCover pages).2 arrival).filter
        (okP (runP ctx oracle compress pages taskId fullOutline userImages userTopic activeBrand))).length
      = (selectCover pages).2.countP
          (okP (runP ctx oracle compress pages taskId fullOutline userImages userTopic activeBrand))
    ∧ ((fanOrder (runP ctx oracle compress pages taskId fullOutline userImages userTopic activeBrand)
          (selectCover pages).2 arrival).filter
        (fun p => !okP (runP ctx oracle compress pages taskId fullOutline userImages userTopic activeBrand) p)).length
      = (selectCover pages).2.countP
          (fun p => !okP (runP ctx oracle compress pages taskId fullOutline userImages userTopic activeBrand) p)
    ∧ ((pages.filter (fun p => p.type = "cover")).length ≤ 1 →
        (∀ call, ∃ b, oracle call = .ok b) →
        (coverOkImgs ctx oracle compress pages fullOutline userImages userTopic activeBrand).length
            + ((fanOrder (runP ctx oracle compress pages taskId fullOutline userImages userTopic activeBrand)
                  (selectCover pages).2 arrival).filter
                (okP (runP ctx oracle compress pages taskId fullOutline userImages userTopic activeBrand))).length
          = pages.length
        ∧ (coverFailPages ctx oracle compress pages fullOutline userImages userTopic activeBrand).length
            + ((fanOrder (runP ctx oracle compress pages taskId fullOutline userImages userTopic activeBrand)
                  (selectCover pages).2 arrival).filter
                (fun p => !okP (runP ctx oracle compress pages taskId fullOutline userImages userTopic activeBrand) p)).length
          = 0) := by
  have hperm := fanOrder_perm
    (runP ctx oracle compress pages taskId fullOutline userImages userTopic activeBrand)
    harr
  refine ⟨?_, ?_, ?_, ?_, ?_⟩
  · rw [generate_images_eq, List.filter_append]
    have h1 : (runAccF ctx oracle compress pages taskId fullOutline userImages userTopic
        activeBrand arrival).events.filter Event.isFinish = [] := by
      rw [List.filter_eq_nil_iff]
      intro e he
      rw [runAccF_events] at he
      rcases List.mem_append.mp he with hw | hw
      · rw [(coverEvts_shape ctx oracle compress pages taskId fullOutline userImages
          userTopic activeBrand e hw).2]
        simp
      · rw [(fanPhaseEvts_shape _ _ _ _ e hw).2]
        simp
    rw [h1, List.nil_append]
    have h2 : (runFin ctx oracle compress pages taskId fullOutline userImages userTopic
        activeBrand arrival).isFinish = true := rfl
    rw [List.filter_cons, h2]
    simp only [if_pos trivial, List.filter_nil]
    rw [runFin, runAccF_genImgs, runAccF_failedPages]
    simp [List.length_append, List.length_map]
  · rw [generate_images_eq]
    exact finishLast_concat _ _ rfl
  · rw [← List.countP_eq_length_filter]
    exact hperm.countP_congr (fun x _ => rfl)
  · rw [← List.countP_eq_length_filter]
    exact hperm.countP_congr (fun x _ => rfl)
  · intro hle hall
    have hok : ∀ p, okP (runP ctx oracle compress pages taskId fullOutline userImages
        userTopic activeBrand) p = true := fun p => okP_of_all_ok hall p
    have hfilter_ok : ((fanOrder (runP ctx oracle compress pages taskId fullOutline userImages
        userTopic activeBrand) (selectCover pages).2 arrival).filter
          (okP (runP ctx oracle compress pages taskId fullOutline userImages userTopic activeBrand)))
        = fanOrder (runP ctx oracle compress pages taskId fullOutline userImages userTopic
            activeBrand) (selectCover pages).2 arrival :=
      List.filter_eq_self.mpr (fun p _ => hok p)
    have hfilter_bad : ((fanOrder (runP ctx oracle compress pages taskId fullOutline userImages
        userTopic activeBrand) (selectCover pages).2 arrival).filter
          (fun p => !okP (runP ctx oracle compress pages taskId fullOutline userImages userTopic activeBrand) p))
        = [] := by
      rw [List.filter_eq_nil_iff]
      intro p _
      rw [hok p]
      simp
    rw [hfilter_ok, hfilter_bad]
    rw [hperm.length_eq]
    cases hsel : (selectCover pages).1 with
    | none =>
      have hnil := selectCover_none hsel
      subst hnil
      constructor
      · rw [coverOkImgs.eq_def, coverRes.eq_def, hsel]
        simp [selectCover]
      · rw [coverFailPages.eq_def, coverRes.eq_def, hsel]
        simp
    | some c =>
      obtain ⟨d, hd⟩ := @genSingle_ok_of_all_ok ctx _ hall c none fullOutline
        (compressUserImages compress userImages) userTopic activeBrand
      have hlen := selectCover_length_eq hsel hle
      constructor
      · rw [coverOkImgs.eq_def, coverRes.eq_def, hsel]
        simp only [hd]
        simp only [List.length_singleton]
        omega
      · rw [coverFailPages.eq_def, coverRes.eq_def, hsel]
        simp only [hd]
        simp

/-- Witness for C1 at a concrete three-page task. -/
theorem finish_event_summary_witness :
    finishLast (generate_images exCtx exOracleOk id exPages "t" "" none "" none exOthers).1
      = true :=
  (finish_event_summary exCtx exOracleOk id exPages "t" "" none "" none exOthers
    (List.Perm.refl _)).2.1

/-- C2: when the cover page's generation fails, the run emits a cover-phase
`error` event with the cover's index, its message and `retryable = true`,
records the message in the task's `failed` map at the cover's index, and
still generates every non-cover page (each one gets a content-phase
`complete` or `error` event of its own). -/
theorem cover_failure_reported_and_fanout_continues
    (ctx : Ctx) (oracle : ProviderCall → Except String Bytes) (compress : Bytes → Bytes)
    (pages : List Page) (taskId fullOutline : String) (userImages : Option (List Bytes))
    (userTopic : String) (activeBrand : Option String) (arrival : List Page)
    (c : Page) (msg : String)
    (hsel : (selectCover pages).1 = some c)
    (hfail : genSingle ctx oracle c none fullOutline (compressUserImages compress userImages)
        userTopic activeBrand = .err c.index msg)
    (hn : (pages.map Page.index).Nodup)
    (harr : arrival.Perm (selectCover pages).2) :
    Event.errorCover c.index msg true
        ∈ (generate_images ctx oracle compress pages taskId fullOutline userImages userTopic
            activeBrand arrival).1
    ∧ dlookup c.index (generate_images ctx oracle compress pages taskId fullOutline userImages
        userTopic activeBrand arrival).2.failed = some msg
    ∧ ∀ p ∈ (selectCover pages).2,
        (∃ u, Event.completeContent p.index u
          ∈ (generate_images ctx oracle compress pages taskId fullOutline userImages userTopic
              activeBrand arrival).1)
        ∨ (∃ m', Event.errorContent p.index m' true
          ∈ (generate_images ctx oracle compress pages taskId fullOutline userImages userTopic
              activeBrand arrival).1) := by
  have hcr : coverRes ctx oracle compress pages fullOutline userImages userTopic activeBrand
      = some (c, .err c.index msg) := by
    rw [coverRes.eq_def, hsel]
    show some (c, genSingle ctx oracle c none fullOutline
      (compressUserImages compress userImages) userTopic activeBrand) = _
    rw [hfail]
  have hperm := fanOrder_perm
    (runP ctx oracle compress pages taskId fullOutline userImages userTopic activeBrand)
    harr
  refine ⟨?_, ?_, ?_⟩
  · rw [generate_images_eq]
    apply List.mem_append_left
    rw [runAccF_events]
    apply List.mem_append_left
    rw [coverEvts.eq_def, hcr]
    simp
  · rw [generate_images_eq]
    show dlookup c.index (runAccF ctx oracle compress pages taskId fullOutline userImages
      userTopic activeBrand arrival).fail = some msg
    have hstable : ∀ p ∈ fanOrder (runP ctx oracle compress pages taskId fullOutline
        userImages userTopic activeBrand) (selectCover pages).2 arrival, p.index ≠ c.index := by
      intro p hp he
      exact selectCover_index_not_mem hn hsel
        (he ▸ List.mem_map_of_mem Page.index (hperm.mem_iff.mp hp))
    rw [runAccF_fail_dlookup_stable ctx oracle compress pages taskId fullOutline userImages
      userTopic activeBrand arrival c.index hstable]
    rw [coverFailMap.eq_def, hcr]
    simp [dlookup]
  · intro p hp
    have hp' : p ∈ fanOrder (runP ctx oracle compress pages taskId fullOutline userImages
        userTopic activeBrand) (selectCover pages).2 arrival := hperm.mem_iff.mpr hp
    have hmem := runAccF_terminal_mem ctx oracle compress pages taskId fullOutline userImages
      userTopic activeBrand arrival hp'
    rcases fanOutcome_eq_ok_or_err
        (runP ctx oracle compress pages taskId fullOutline userImages userTopic activeBrand) p
      with ⟨d, hd⟩ | ⟨m', hm'⟩
    · left
      refine ⟨imgUrl taskId (fnameOf p), ?_⟩
      rw [generate_images_eq]
      apply List.mem_append_left
      have : terminalEvt (runP ctx oracle compress pages taskId fullOutline userImages
          userTopic activeBrand) p = Event.completeContent p.index (imgUrl taskId (fnameOf p)) := by
        rw [terminalEvt, hd]
        rfl
      rw [this] at hmem
      exact hmem
    · right
      refine ⟨m', ?_⟩
      rw [generate_images_eq]
      apply List.mem_append_left
      have : terminalEvt (runP ctx oracle compress pages taskId fullOutline userImages
          userTopic activeBrand) p = Event.errorContent p.index m' true := by
        rw [terminalEvt, hm']
      rw [this] at hmem
      exact hmem

/-- Witness for C2 at a concrete three-page task whose provider always
fails. -/
theorem cover_failure_witness :
    dlookup 0 (generate_images exCtx exOracleFail id exPages "t" "" none "" none
      exOthers).2.failed = some "boom" :=
  (cover_failure_reported_and_fanout_continues exCtx exOracleFail id exPages "t" "" none ""
    none exOthers ⟨0, "cover", "A"⟩ "boom" rfl rfl (by decide) (List.Perm.refl _)).2.1

theorem not_generating_of_terminal {e : Event} (h : e.isContentTerminal = true) :
    e.isContentGenerating = false := by
  cases e <;> first
    | rfl
    | (exfalso; simp [Event.isContentTerminal] at h)

/-- C4 counterexample: in a sequential run of three pages with an
always-succeeding provider, the `complete` event of page 1 is emitted before
the `generating` event of page 2, so the spec's ordering property (all
fan-out `generating` events precede every content `complete`/`error` event)
is false as stated for every run. -/
theorem event_ordering_counterexample :
    specEventOrdering (generate_images exCtx exOracleOk id exPages "t" "" none "" none
      exOthers).1 = false := by
  rfl

/-- C4 amended: cover-phase events always form a prefix of the stream and the
summary event is always last; the batch-announcement ordering (every fan-out
`generating` event before any content `complete`/`error` event) holds in
high-concurrency runs, where the whole batch is announced before results are
collected — in sequential runs `generating` and terminal events interleave
per page. -/
theorem event_ordering_guarantees
    (ctx : Ctx) (oracle : ProviderCall → Except String Bytes) (compress : Bytes → Bytes)
    (pages : List Page) (taskId fullOutline : String) (userImages : Option (List Bytes))
    (userTopic : String) (activeBrand : Option String) (arrival : List Page) :
    coverEventsFirst (generate_images ctx oracle compress pages taskId fullOutline userImages
        userTopic activeBrand arrival).1 = true
    ∧ finishLast (generate_images ctx oracle compress pages taskId fullOutline userImages
        userTopic activeBrand arrival).1 = true
    ∧ (ctx.highConcurrency = true →
        contentGenAnnouncedFirst (generate_images ctx oracle compress pages taskId fullOutline
          userImages userTopic activeBrand arrival).1 = true) := by
  have hfinnotcover : (runFin ctx oracle compress pages taskId fullOutline userImages userTopic
      activeBrand arrival).isCoverPhase = false := rfl
  have hfinnotgen : (runFin ctx oracle compress pages taskId fullOutline userImages userTopic
      activeBrand arrival).isContentGenerating = false := rfl
  refine ⟨?_, ?_, ?_⟩
  · rw [generate_images_eq, runAccF_events, List.append_assoc]
    apply coverEventsFirst_of
    · exact fun e he => (coverEvts_shape ctx oracle compress pages taskId fullOutline
        userImages userTopic activeBrand e he).1
    · intro e he
      rcases List.mem_append.mp he with hw | hw
      · exact (fanPhaseEvts_shape _ _ _ _ e hw).1
      · rcases List.mem_singleton.mp hw with rfl
        exact hfinnotcover
  · rw [generate_images_eq]
    exact finishLast_concat _ _ rfl
  · intro hc
    have hcP : (runP ctx oracle compress pages taskId fullOutline userImages userTopic
        activeBrand).ctx.highConcurrency = true := hc
    rw [generate_images_eq, runAccF_events]
    cases h0 : (selectCover pages).2.isEmpty with
    | true =>
      rw [fanPhaseEvts_empty _ _ _ h0, List.append_nil]
      apply contentGenAnnouncedFirst_of_all
      intro e he
      rcases List.mem_append.mp he with hw | hw
      · have := (coverEvts_shape ctx oracle compress pages taskId fullOutline userImages
          userTopic activeBrand e hw).1
        cases e <;> first
          | rfl
          | (exfalso; simp [Event.isCoverPhase] at this)
      · rcases List.mem_singleton.mp hw with rfl
        exact hfinnotgen
    | false =>
      rw [fanPhaseEvts_hc _ _ _ h0 hcP]
      rw [show
          (coverEvts ctx oracle compress pages taskId fullOutline userImages userTopic activeBrand
            ++ (Event.batchStart ("开始并发生成 " ++ toString (selectCover pages).2.length ++ " 页内容...")
                  (coverOkImgs ctx oracle compress pages fullOutline userImages userTopic activeBrand).length
                  (runP ctx oracle compress pages taskId fullOutline userImages userTopic activeBrand).total
                :: ((selectCover pages).2.map (fun p => Event.progressContent p.index
                      ((coverOkImgs ctx oracle compress pages fullOutline userImages userTopic activeBrand).length + 1)
                      (runP ctx oracle compress pages taskId fullOutline userImages userTopic activeBrand).total)
                    ++ seqEvts (runP ctx oracle compress pages taskId fullOutline userImages userTopic activeBrand)
                        false arrival
                        (coverOkImgs ctx oracle compress pages fullOutline userImages userTopic activeBrand).length)))
            ++ [runFin ctx oracle compress pages taskId fullOutline userImages userTopic activeBrand arrival]
          = (coverEvts ctx oracle compress pages taskId fullOutline userImages userTopic activeBrand
              ++ Event.batchStart ("开始并发生成 " ++ toString (selectCover pages).2.length ++ " 页内容...")
                  (coverOkImgs ctx oracle compress pages fullOutline userImages userTopic activeBrand).length
                  (runP ctx oracle compress pages taskId fullOutline userImages userTopic activeBrand).total
                :: (selectCover pages).2.map (fun p => Event.progressContent p.index
                      ((coverOkImgs ctx oracle compress pages fullOutline userImages userTopic activeBrand).length + 1)
                      (runP ctx oracle compress pages taskId fullOutline userImages userTopic activeBrand).total))
            ++ (seqEvts (runP ctx oracle compress pages taskId fullOutline userImages userTopic activeBrand)
                  false arrival
                  (coverOkImgs ctx oracle compress pages fullOutline userImages userTopic activeBrand).length
                ++ [runFin ctx oracle compress pages taskId fullOutline userImages userTopic activeBrand arrival])
        from by simp [List.append_assoc]]
      rw [contentGenAnnouncedFirst_append_left]
      · apply contentGenAnnouncedFirst_of_all
        intro e he
        rcases List.mem_append.mp he with hw | hw
        · exact not_generating_of_terminal (seqEvts_terminal_only _ _ _ e hw)
        · rcases List.mem_singleton.mp hw with rfl
          exact hfinnotgen
      · intro e he
        rcases List.mem_append.mp he with hw | hw
        · have := (coverEvts_shape ctx oracle compress pages taskId fullOutline userImages
            userTopic activeBrand e hw).1
          cases e <;> first
            | rfl
            | (exfalso; simp [Event.isCoverPhase] at this)
        · rcases List.mem_cons.mp hw with rfl | hw'
          · rfl
          · rcases List.mem_map.mp hw' with ⟨q, -, rfl⟩
            rfl

/-- Witness for the amended C4 at a concrete high-concurrency run. -/
theorem event_ordering_witness :
    contentGenAnnouncedFirst (generate_images exCtxHc exOracleOk id exPages "t" "" none ""
      none exOthers).1 = true :=
  (event_ordering_guarantees exCtxHc exOracleOk id exPages "t" "" none "" none exOthers).2.2
    rfl

theorem selectCover_eq_of_getLast {pages : List Page} {c : Page}
    (hl : (pages.filter (fun p => p.type = "cover")).getLast? = some c) :
    (selectCover pages).1 = some c
      ∧ (selectCover pages).2 = pages.filter (fun p => ¬ p.type = "cover") := by
  rw [selectCover.eq_def, hl]
  exact ⟨rfl, rfl⟩

theorem coverRes_shape {ctx : Ctx} {oracle : ProviderCall → Except String Bytes}
    {compress : Bytes → Bytes} {pages : List Page} {fullOutline : String}
    {userImages : Option (List Bytes)} {userTopic : String} {activeBrand : Option String}
    {c : Page} {r : GenRes}
    (hcr : coverRes ctx oracle compress pages fullOutline userImages userTopic activeBrand
      = some (c, r)) :
    (selectCover pages).1 = some c
      ∧ ((∃ d, r = .ok c.index (fnameOf c) d) ∨ (∃ m, r = .err c.index m)) := by
  have hsel : (selectCover pages).1 = some c := by
    rw [coverRes.eq_def] at hcr
    cases h : (selectCover pages).1 with
    | none =>
      rw [h] at hcr
      cases hcr
    | some c' =>
      rw [h] at hcr
      simp only [Option.some.injEq, Prod.mk.injEq] at hcr
      rw [hcr.1]
  refine ⟨hsel, ?_⟩
  have heq : coverRes ctx oracle compress pages fullOutline userImages userTopic activeBrand
      = some (c, genSingle ctx oracle c none fullOutline
          (compressUserImages compress userImages) userTopic activeBrand) := by
    rw [coverRes.eq_def, hsel]
  rw [heq] at hcr
  simp only [Option.some.injEq, Prod.mk.injEq] at hcr
  rcases genSingle_shape ctx oracle c none fullOutline
      (compressUserImages compress userImages) userTopic activeBrand with ⟨d, hd⟩ | ⟨m, hm⟩
  · exact Or.inl ⟨d, by rw [← hcr.2, hd]⟩
  · exact Or.inr ⟨m, by rw [← hcr.2, hm]⟩

theorem coverEvts_index {ctx : Ctx} {oracle : ProviderCall → Except String Bytes}
    {compress : Bytes → Bytes} {pages : List Page} {taskId fullOutline : String}
    {userImages : Option (List Bytes)} {userTopic : String} {activeBrand : Option String}
    {c : Page} {r : GenRes}
    (hcr : coverRes ctx oracle compress pages fullOutline userImages userTopic activeBrand
      = some (c, r)) :
    ∀ e ∈ coverEvts ctx oracle compress pages taskId fullOutline userImages userTopic activeBrand,
      ∀ i, e.pageIndex? = some i → i = c.index := by
  obtain ⟨-, hshape⟩ := coverRes_shape hcr
  intro e he i hi
  rw [coverEvts.eq_def, hcr] at he
  rcases hshape with ⟨d, rfl⟩ | ⟨m, rfl⟩
  · rcases List.mem_cons.mp he with rfl | he'
    · simp [Event.pageIndex?] at hi
      omega
    · rcases List.mem_singleton.mp (by simpa using he') with rfl
      simp [Event.pageIndex?] at hi
      omega
  · rcases List.mem_cons.mp he with rfl | he'
    · simp [Event.pageIndex?] at hi
      omega
    · rcases List.mem_singleton.mp (by simpa using he') with rfl
      simp [Event.pageIndex?] at hi
      omega

theorem coverGenMap_dmem {ctx : Ctx} {oracle : ProviderCall → Except String Bytes}
    {compress : Bytes → Bytes} {pages : List Page} {fullOutline : String}
    {userImages : Option (List Bytes)} {userTopic : String} {activeBrand : Option String}
    {k : Nat}
    (h : dmem k (coverGenMap ctx oracle compress pages fullOutline userImages userTopic
      activeBrand) = true) :
    ∃ c r, coverRes ctx oracle compress pages fullOutline userImages userTopic activeBrand
        = some (c, r) ∧ k = c.index := by
  rw [coverGenMap.eq_def] at h
  cases hcr : coverRes ctx oracle compress pages fullOutline userImages userTopic activeBrand with
  | none =>
    rw [hcr] at h
    simp [dmem] at h
  | some pr =>
    obtain ⟨c, r⟩ := pr
    rw [hcr] at h
    obtain ⟨-, hshape⟩ := coverRes_shape hcr
    rcases hshape with ⟨d, rfl⟩ | ⟨m, rfl⟩
    · refine ⟨c, _, rfl, ?_⟩
      simp [dmem] at h
      omega
    · simp [dmem] at h

theorem coverFailMap_dmem {ctx : Ctx} {oracle : ProviderCall → Except String Bytes}
    {compress : Bytes → Bytes} {pages : List Page} {fullOutline : String}
    {userImages : Option (List Bytes)} {userTopic : String} {activeBrand : Option String}
    {k : Nat}
    (h : dmem k (coverFailMap ctx oracle compress pages fullOutline userImages userTopic
      activeBrand) = true) :
    ∃ c r, coverRes ctx oracle compress pages fullOutline userImages userTopic activeBrand
        = some (c, r) ∧ k = c.index := by
  rw [coverFailMap.eq_def] at h
  cases hcr : coverRes ctx oracle compress pages fullOutline userImages userTopic activeBrand with
  | none =>
    rw [hcr] at h
    simp [dmem] at h
  | some pr =>
    obtain ⟨c, r⟩ := pr
    rw [hcr] at h
    obtain ⟨-, hshape⟩ := coverRes_shape hcr
    rcases hshape with ⟨d, rfl⟩ | ⟨m, rfl⟩
    · simp [dmem] at h
    · refine ⟨c, _, rfl, ?_⟩
      simp [dmem] at h
      omega

theorem coverLists_length {ctx : Ctx} {oracle : ProviderCall → Except String Bytes}
    {compress : Bytes → Bytes} {pages : List Page} {fullOutline : String}
    {userImages : Option (List Bytes)} {userTopic : String} {activeBrand : Option String}
    {c : Page}
    (hsel : (selectCover pages).1 = some c) :
    (coverOkImgs ctx oracle compress pages fullOutline userImages userTopic activeBrand).length
      + (coverFailPages ctx oracle compress pages fullOutline userImages userTopic activeBrand).length
      = 1 := by
  rw [coverOkImgs.eq_def, coverFailPages.eq_def, coverRes.eq_def, hsel]
  rcases genSingle_shape ctx oracle c none fullOutline
      (compressUserImages compress userImages) userTopic activeBrand with ⟨d, hd⟩ | ⟨m, hm⟩
  · simp only [hd]
    rfl
  · simp only [hm]
    rfl

/-- C10: with several cover-typed pages, the partition loop keeps the *last*
of them as the cover; any earlier cover-typed page is silently dropped — it
is excluded from the fan-out list, no emitted event carries its index, it
ends up in neither the `generated` nor the `failed` map, yet the `finish`
summary still counts it in `total`, so `completed + failed < total`. -/
theorem duplicate_cover_last_wins
    (ctx : Ctx) (oracle : ProviderCall → Except String Bytes) (compress : Bytes → Bytes)
    (pages : List Page) (taskId fullOutline : String) (userImages : Option (List Bytes))
    (userTopic : String) (activeBrand : Option String) (arrival : List Page)
    (harr : arrival.Perm (selectCover pages).2)
    (hn : (pages.map Page.index).Nodup)
    (h2 : 2 ≤ (pages.filter (fun q => q.type = "cover")).length)
    (p : Page) (hp : p ∈ pages) (hptype : p.type = "cover")
    (hne : (pages.filter (fun q => q.type = "cover")).getLast? ≠ some p) :
    (selectCover pages).1 = (pages.filter (fun q => q.type = "cover")).getLast?
    ∧ p ∉ (selectCover pages).2
    ∧ (∀ e ∈ (generate_images ctx oracle compress pages taskId fullOutline userImages
          userTopic activeBrand arrival).1, ∀ i, e.pageIndex? = some i → i ≠ p.index)
    ∧ dmem p.index (generate_images ctx oracle compress pages taskId fullOutline userImages
        userTopic activeBrand arrival).2.generated = false
    ∧ dmem p.index (generate_images ctx oracle compress pages taskId fullOutline userImages
        userTopic activeBrand arrival).2.failed = false
    ∧ (∃ s imgs comp failCnt fidx,
        ((generate_images ctx oracle compress pages taskId fullOutline userImages userTopic
          activeBrand arrival).1).getLast?
          = some (Event.finish s taskId imgs pages.length comp failCnt fidx)
        ∧ comp + failCnt < pages.length) := by
  obtain ⟨c, hl⟩ : ∃ c, (pages.filter (fun q => q.type = "cover")).getLast? = some c := by
    cases hl : (pages.filter (fun q => q.type = "cover")).getLast? with
    | none =>
      exfalso
      rw [List.getLast?_eq_none_iff] at hl
      rw [hl] at h2
      simp at h2
    | some c => exact ⟨c, rfl⟩
  obtain ⟨hsel, hsnd⟩ := selectCover_eq_of_getLast hl
  have hpnot : p ∉ (selectCover pages).2 := by
    rw [hsnd]
    intro hmem
    have := List.of_mem_filter hmem
    simp at this
    exact this hptype
  have hcnep : c ≠ p := fun he => hne (he ▸ hl)
  have hcidx : c.index ≠ p.index := by
    intro he
    exact hcnep (List.inj_on_of_nodup_map hn (selectCover_fst_mem hsel) hp he)
  have hperm := fanOrder_perm
    (runP ctx oracle compress pages taskId fullOutline userImages userTopic activeBrand)
    harr
  have hothers_ne : ∀ q ∈ (selectCover pages).2, q.index ≠ p.index := by
    intro q hq he
    have hqpages := (selectCover_snd_sublist pages).mem hq
    have := List.inj_on_of_nodup_map hn hqpages hp he
    rw [this] at hq
    exact hpnot hq
  have hcr : coverRes ctx oracle compress pages fullOutline userImages userTopic activeBrand
      = some (c, genSingle ctx oracle c none fullOutline
          (compressUserImages compress userImages) userTopic activeBrand) := by
    rw [coverRes.eq_def, hsel]
  refine ⟨hsel.trans hl.symm, hpnot, ?_, ?_, ?_, ?_⟩
  · intro e he i hi
    rw [generate_images_eq] at he
    rcases List.mem_append.mp he with hw | hw
    · rw [runAccF_events] at hw
      rcases List.mem_append.mp hw with hw' | hw'
      · have := coverEvts_index hcr e hw' i hi
        rw [this]
        exact hcidx
      · intro hip
        rcases fanPhaseEvts_index_mem _ _ _ _ e hw' i hi with hidx | hidx
        · rcases List.mem_map.mp hidx with ⟨q, hq, hqe⟩
          exact hothers_ne q hq (hip ▸ hqe)
        · rcases List.mem_map.mp hidx with ⟨q, hq, hqe⟩
          exact hothers_ne q (harr.mem_iff.mp hq) (hip ▸ hqe)
    · rcases List.mem_singleton.mp hw with rfl
      cases hi
  · rw [generate_images_eq]
    show dmem p.index (runAccF ctx oracle compress pages taskId fullOutline userImages
      userTopic activeBrand arrival).gen = false
    rw [Bool.eq_false_iff]
    intro htrue
    rcases (runAccF_gen_dmem ctx oracle compress pages taskId fullOutline userImages
        userTopic activeBrand arrival p.index).mp htrue with hm | ⟨q, hq, -, hqe⟩
    · obtain ⟨c', r', hcr', hke⟩ := coverGenMap_dmem hm
      rw [hcr'] at hcr
      simp only [Option.some.injEq, Prod.mk.injEq] at hcr
      exact hcidx (hcr.1 ▸ hke.symm)
    · exact hothers_ne q (hperm.mem_iff.mp hq) hqe
  · rw [generate_images_eq]
    show dmem p.index (runAccF ctx oracle compress pages taskId fullOutline userImages
      userTopic activeBrand arrival).fail = false
    rw [Bool.eq_false_iff]
    intro htrue
    rcases (runAccF_fail_dmem ctx oracle compress pages taskId fullOutline userImages
        userTopic activeBrand arrival p.index).mp htrue with hm | ⟨q, hq, -, hqe⟩
    · obtain ⟨c', r', hcr', hke⟩ := coverFailMap_dmem hm
      rw [hcr'] at hcr
      simp only [Option.some.injEq, Prod.mk.injEq] at hcr
      exact hcidx (hcr.1 ▸ hke.symm)
    · exact hothers_ne q (hperm.mem_iff.mp hq) hqe
  · refine ⟨(runAccF ctx oracle compress pages taskId fullOutline userImages userTopic
        activeBrand arrival).failedPages.isEmpty,
      (runAccF ctx oracle compress pages taskId fullOutline userImages userTopic
        activeBrand arrival).genImgs,
      (runAccF ctx oracle compress pages taskId fullOutline userImages userTopic
        activeBrand arrival).genImgs.length,
      (runAccF ctx oracle compress pages taskId fullOutline userImages userTopic
        activeBrand arrival).failedPages.length,
      (runAccF ctx oracle compress pages taskId fullOutline userImages userTopic
        activeBrand arrival).failedPages.map Page.index, ?_, ?_⟩
    · rw [generate_images_eq]
      exact List.getLast?_concat _
    · rw [runAccF_genImgs, runAccF_failedPages]
      rw [List.length_append, List.length_append, List.length_map]
      have h1 := @coverLists_length ctx oracle compress pages fullOutline userImages userTopic
        activeBrand _ hsel
      have h2' := @List.length_eq_length_filter_add Page
        (fanOrder (runP ctx oracle compress pages taskId fullOutline userImages userTopic
          activeBrand) (selectCover pages).2 arrival)
        (okP (runP ctx oracle compress pages taskId fullOutline userImages userTopic activeBrand))
      have h3 := hperm.length_eq
      have h4 := selectCover_length_lt h2
      omega

/-- Witness for C10: with covers at indices 0 and 2, page 0 is dropped and
never reaches the `generated` map. -/
theorem duplicate_cover_witness :
    dmem 0 (generate_images exCtx exOracleOk id exPagesDup "t" "" none "" none
      [⟨1, "content", "B"⟩]).2.generated = false :=
  (duplicate_cover_last_wins exCtx exOracleOk id exPagesDup "t" "" none "" none
    [⟨1, "content", "B"⟩] (List.Perm.refl _) (by decide) (by decide)
    ⟨0, "cover", "A"⟩ (by decide) rfl (by decide)).2.2.2.1

/-- C9: `_generate_single_image` is total — for every page and every outcome
of the provider call (exceptions included, modelled by the oracle's `.error`)
it returns either the success tuple `(index, True, filename, None)` or the
failure tuple `(index, False, None, error_message)`, never propagating the
exception; consequently every non-cover page of a pipeline run receives its
own terminal (`complete` or `error`) event, regardless of its siblings'
outcomes. -/
theorem gen_single_never_throws :
    (∀ (ctx : Ctx) (oracle : ProviderCall → Except String Bytes) (page : Page)
        (reference : Option Bytes) (fullOutline : String) (userImages : Option (List Bytes))
        (userTopic : String) (brandStyle : Option String),
      (∃ d, genSingle ctx oracle page reference fullOutline userImages userTopic brandStyle
          = .ok page.index (fnameOf page) d)
      ∨ (∃ m, genSingle ctx oracle page reference fullOutline userImages userTopic brandStyle
          = .err page.index m))
    ∧ (∀ (ctx : Ctx) (oracle : ProviderCall → Except String Bytes) (compress : Bytes → Bytes)
        (pages : List Page) (taskId fullOutline : String) (userImages : Option (List Bytes))
        (userTopic : String) (activeBrand : Option String) (arrival : List Page),
        arrival.Perm (selectCover pages).2 →
        ∀ p ∈ (selectCover pages).2,
          (∃ u, Event.completeContent p.index u
            ∈ (generate_images ctx oracle compress pages taskId fullOutline userImages
                userTopic activeBrand arrival).1)
          ∨ (∃ m, Event.errorContent p.index m true
            ∈ (generate_images ctx oracle compress pages taskId fullOutline userImages
                userTopic activeBrand arrival).1)) := by
  constructor
  · intro ctx oracle page reference fullOutline userImages userTopic brandStyle
    exact genSingle_shape ctx oracle page reference fullOutline userImages userTopic brandStyle
  · intro ctx oracle compress pages taskId fullOutline userImages userTopic activeBrand
      arrival harr p hp
    have hperm := fanOrder_perm
      (runP ctx oracle compress pages taskId fullOutline userImages userTopic activeBrand)
      harr
    have hp' : p ∈ fanOrder (runP ctx oracle compress pages taskId fullOutline userImages
        userTopic activeBrand) (selectCover pages).2 arrival := hperm.mem_iff.mpr hp
    have hmem := runAccF_terminal_mem ctx oracle compress pages taskId fullOutline userImages
      userTopic activeBrand arrival hp'
    rcases fanOutcome_eq_ok_or_err
        (runP ctx oracle compress pages taskId fullOutline userImages userTopic activeBrand) p
      with ⟨d, hd⟩ | ⟨m', hm'⟩
    · left
      refine ⟨imgUrl taskId (fnameOf p), ?_⟩
      rw [generate_images_eq]
      apply List.mem_append_left
      have heq : terminalEvt (runP ctx oracle compress pages taskId fullOutline userImages
          userTopic activeBrand) p = Event.completeContent p.index (imgUrl taskId (fnameOf p)) := by
        rw [terminalEvt, hd]
        rfl
      rw [heq] at hmem
      exact hmem
    · right
      refine ⟨m', ?_⟩
      rw [generate_images_eq]
      apply List.mem_append_left
      have heq : terminalEvt (runP ctx oracle compress pages taskId fullOutline userImages
          userTopic activeBrand) p = Event.errorContent p.index m' true := by
        rw [terminalEvt, hm']
      rw [heq] at hmem
      exact hmem

/-- Witness for C9: a page whose provider call fails still yields the failure
tuple, at a concrete input. -/
theorem gen_single_never_throws_witness :
    (∃ d, genSingle exCtx exOracleOk ⟨1, "content", "B"⟩ none "" none "" none
        = .ok 1 "1.png" d)
    ∨ (∃ m, genSingle exCtx exOracleOk ⟨1, "content", "B"⟩ none "" none "" none
        = .err 1 m) :=
  gen_single_never_throws.1 exCtx exOracleOk ⟨1, "content", "B"⟩ none "" none "" none

theorem genSingle_ok_eq {ctx : Ctx} {oracle : ProviderCall → Except String Bytes}
    {page : Page} {reference : Option Bytes} {fullOutline : String}
    {userImages : Option (List Bytes)} {userTopic : String} {brandStyle : Option String}
    {i : Nat} {f : String} {d : Bytes}
    (h : genSingle ctx oracle page reference fullOutline userImages userTopic brandStyle
      = .ok i f d) : i = page.index ∧ f = fnameOf page := by
  rcases genSingle_shape ctx oracle page reference fullOutline userImages userTopic brandStyle
    with ⟨d', hd⟩ | ⟨m, hm⟩
  · rw [hd] at h
    cases h
    exact ⟨rfl, rfl⟩
  · rw [hm] at h
    cases h

theorem genSingle_err_eq {ctx : Ctx} {oracle : ProviderCall → Except String Bytes}
    {page : Page} {reference : Option Bytes} {fullOutline : String}
    {userImages : Option (List Bytes)} {userTopic : String} {brandStyle : Option String}
    {i : Nat} {m : String}
    (h : genSingle ctx oracle page reference fullOutline userImages userTopic brandStyle
      = .err i m) : i = page.index := by
  rcases genSingle_shape ctx oracle page reference fullOutline userImages userTopic brandStyle
    with ⟨d', hd⟩ | ⟨m', hm⟩
  · rw [hd] at h
    cases h
  · rw [hm] at h
    cases h
    rfl

/-- The task-map patch of a successful single retry preserves the invariant. -/
theorem patched_stInv {ts0 : TaskState} {k : Nat} {f : String}
    (hinv : stInv ts0) (hk : k ∈ ts0.pages.map Page.index) :
    stInv { ts0 with
      generated := dinsert k f ts0.generated
      failed := derase k ts0.failed } := by
  constructor
  · intro k' ⟨hkg, hkf⟩
    simp only at hkg hkf
    rw [dmem_dinsert] at hkg
    rw [dmem_derase] at hkf
    rcases Bool.or_eq_true_iff.mp hkg with he | hg0
    · have he' : k = k' := of_decide_eq_true he
      rw [← he'] at hkf
      simp at hkf
    · rcases Bool.and_eq_true_iff.mp hkf with ⟨-, hf0⟩
      exact hinv.1 k' ⟨hg0, hf0⟩
  · intro k' hk'
    simp only at hk' ⊢
    rcases hk' with hkg | hkf
    · rw [dmem_dinsert] at hkg
      rcases Bool.or_eq_true_iff.mp hkg with he | hg0
      · exact of_decide_eq_true he ▸ hk
      · exact hinv.2 k' (Or.inl hg0)
    · rw [dmem_derase] at hkf
      exact hinv.2 k' (Or.inr (Bool.and_eq_true_iff.mp hkf).2)

theorem retryStep_inv (ctx : Ctx) (oracle : ProviderCall → Except String Bytes)
    (taskId : String) (reference : Option Bytes) (fullOutline : String)
    (userImages : Option (List Bytes)) (userTopic : String) (brand : Option String)
    (pidx : List Nat) (q : Page) (hq : q.index ∈ pidx) (acc : RetryAcc)
    (hacc : ∀ ts, slookup acc.states taskId = some ts
      → stInv ts ∧ ts.pages.map Page.index = pidx) :
    ∀ ts', slookup (retryStep ctx oracle taskId reference fullOutline userImages userTopic
        brand acc q).states taskId = some ts'
      → stInv ts' ∧ ts'.pages.map Page.index = pidx := by
  intro ts' hts'
  rw [retryStep] at hts'
  cases hg : genSingle ctx oracle q reference fullOutline userImages userTopic brand with
  | err i m =>
    simp only [hg] at hts'
    exact hacc ts' hts'
  | ok i f d =>
    obtain ⟨rfl, -⟩ := genSingle_ok_eq hg
    simp only [hg] at hts'
    cases hl : slookup acc.states taskId with
    | none =>
      rw [hl] at hts'
      exact hacc ts' (by simpa using hts')
    | some ts0 =>
      rw [hl] at hts'
      simp only at hts'
      rw [slookup_supdate_self] at hts'
      injection hts' with h
      subst h
      obtain ⟨hinv0, hpag0⟩ := hacc ts0 hl
      refine ⟨patched_stInv hinv0 ?_, hpag0⟩
      rw [hpag0]
      exact hq

theorem retryFold_inv (ctx : Ctx) (oracle : ProviderCall → Except String Bytes)
    (taskId : String) (reference : Option Bytes) (fullOutline : String)
    (userImages : Option (List Bytes)) (userTopic : String) (brand : Option String)
    (pidx : List Nat) (l : List Page) (hl : ∀ p ∈ l, p.index ∈ pidx) :
    ∀ acc : RetryAcc,
      (∀ ts, slookup acc.states taskId = some ts
        → stInv ts ∧ ts.pages.map Page.index = pidx) →
      ∀ ts', slookup ((l.foldl (retryStep ctx oracle taskId reference fullOutline userImages
          userTopic brand) acc)).states taskId = some ts'
        → stInv ts' ∧ ts'.pages.map Page.index = pidx := by
  induction l with
  | nil => intro acc hacc; exact hacc
  | cons q rest ih =>
    intro acc hacc
    rw [List.foldl_cons]
    exact ih (fun p hp => hl p (List.mem_cons_of_mem q hp)) _
      (retryStep_inv ctx oracle taskId reference fullOutline userImages userTopic brand
        pidx q (hl q (List.mem_cons_self q rest)) acc hacc)

/-- C3: the task-state invariant — `generated` and `failed` have disjoint key
sets whose union lies within the submitted pages' indices — holds after a
`generate_images` run and is preserved by `retry_single_image`,
`regenerate_image` and `retry_failed_images` when they are invoked with pages
belonging to the task; and a page present in `failed` whose retry succeeds
moves to `generated` at the same index and disappears from `failed`. -/
theorem generated_failed_invariant :
    (∀ (ctx : Ctx) (oracle : ProviderCall → Except String Bytes) (compress : Bytes → Bytes)
        (pages : List Page) (taskId fullOutline : String) (userImages : Option (List Bytes))
        (userTopic : String) (activeBrand : Option String) (arrival : List Page),
      arrival.Perm (selectCover pages).2 → (pages.map Page.index).Nodup →
      stInv (generate_images ctx oracle compress pages taskId fullOutline userImages
        userTopic activeBrand arrival).2)
    ∧ (∀ (ctx : Ctx) (oracle : ProviderCall → Except String Bytes) (compress : Bytes → Bytes)
        (disk0 : Option Bytes) (states : TStates) (taskId : String) (page : Page)
        (useReference : Bool) (fullOutline0 userTopic0 : String)
        (activeBrand : Option String) (ts : TaskState),
      slookup states taskId = some ts → stInv ts → page.index ∈ ts.pages.map Page.index →
      ∀ ts', slookup (retry_single_image ctx oracle compress disk0 states taskId page
          useReference fullOutline0 userTopic0 activeBrand).2 taskId = some ts' → stInv ts')
    ∧ (∀ (ctx : Ctx) (oracle : ProviderCall → Except String Bytes) (compress : Bytes → Bytes)
        (disk0 : Option Bytes) (states : TStates) (taskId : String) (page : Page)
        (useReference : Bool) (fullOutline0 userTopic0 : String)
        (activeBrand : Option String) (ts : TaskState),
      slookup states taskId = some ts → stInv ts → page.index ∈ ts.pages.map Page.index →
      ∀ ts', slookup (regenerate_image ctx oracle compress disk0 states taskId page
          useReference fullOutline0 userTopic0 activeBrand).2 taskId = some ts' → stInv ts')
    ∧ (∀ (ctx : Ctx) (oracle : ProviderCall → Except String Bytes) (states : TStates)
        (taskId : String) (pagesR : List Page) (activeBrand : Option String)
        (arrival : List Page) (ts : TaskState),
      slookup states taskId = some ts → stInv ts →
      (∀ p ∈ pagesR, p.index ∈ ts.pages.map Page.index) → arrival.Perm pagesR →
      ∀ ts', slookup (retry_failed_images ctx oracle states taskId pagesR activeBrand
          arrival).2 taskId = some ts' → stInv ts')
    ∧ (∀ (ctx : Ctx) (oracle : ProviderCall → Except String Bytes) (compress : Bytes → Bytes)
        (disk0 : Option Bytes) (states : TStates) (taskId : String) (page : Page)
        (useReference : Bool) (fullOutline0 userTopic0 : String)
        (activeBrand : Option String) (ts : TaskState),
      slookup states taskId = some ts → dmem page.index ts.failed = true →
      (retry_single_image ctx oracle compress disk0 states taskId page useReference
        fullOutline0 userTopic0 activeBrand).1.success = true →
      ∃ ts', slookup (retry_single_image ctx oracle compress disk0 states taskId page
            useReference fullOutline0 userTopic0 activeBrand).2 taskId = some ts'
        ∧ dmem page.index ts'.generated = true
        ∧ dmem page.index ts'.failed = false) := by
  have hsingle : ∀ (ctx : Ctx) (oracle : ProviderCall → Except String Bytes)
      (compress : Bytes → Bytes) (disk0 : Option Bytes) (states : TStates) (taskId : String)
      (page : Page) (useReference : Bool) (fullOutline0 userTopic0 : String)
      (activeBrand : Option String) (ts : TaskState),
      slookup states taskId = some ts → stInv ts → page.index ∈ ts.pages.map Page.index →
      ∀ ts', slookup (retry_single_image ctx oracle compress disk0 states taskId page
          useReference fullOutline0 userTopic0 activeBrand).2 taskId = some ts' → stInv ts' := by
    intro ctx oracle compress disk0 states taskId page useReference fullOutline0 userTopic0
      activeBrand ts hmem hinv hk ts' hts'
    rw [retry_single_image] at hts'
    simp only [hmem] at hts'
    split at hts'
    · next i f d heq =>
      obtain ⟨rfl, -⟩ := genSingle_ok_eq heq
      rw [slookup_supdate_self] at hts'
      injection hts' with h
      subst h
      exact patched_stInv hinv hk
    · next i m heq =>
      rw [hmem] at hts'
      injection hts' with h
      subst h
      exact hinv
  refine ⟨?_, hsingle, ?_, ?_, ?_⟩
  · intro ctx oracle compress pages taskId fullOutline userImages userTopic activeBrand
      arrival harr hn
    have hperm := fanOrder_perm
      (runP ctx oracle compress pages taskId fullOutline userImages userTopic activeBrand)
      harr
    have hfan_others : ∀ p ∈ fanOrder (runP ctx oracle compress pages taskId fullOutline
        userImages userTopic activeBrand) (selectCover pages).2 arrival,
        p ∈ (selectCover pages).2 := fun p hp => hperm.mem_iff.mp hp
    rw [generate_images_eq]
    constructor
    · intro k ⟨hg, hf⟩
      have hg' : dmem k (runAccF ctx oracle compress pages taskId fullOutline userImages
        userTopic activeBrand arrival).gen = true := hg
      have hf' : dmem k (runAccF ctx oracle compress pages taskId fullOutline userImages
        userTopic activeBrand arrival).fail = true := hf
      rcases (runAccF_gen_dmem ctx oracle compress pages taskId fullOutline userImages
          userTopic activeBrand arrival k).mp hg' with hgc | ⟨p, hp, hpok, hpk⟩
      · obtain ⟨c, r, hcr, hkc⟩ := coverGenMap_dmem hgc
        have hsel := (coverRes_shape hcr).1
        rcases (runAccF_fail_dmem ctx oracle compress pages taskId fullOutline userImages
            userTopic activeBrand arrival k).mp hf' with hfc | ⟨q, hq, hqok, hqk⟩
        · rcases (coverRes_shape hcr).2 with ⟨d, hr⟩ | ⟨m, hr⟩
          · rw [coverFailMap.eq_def, hcr, hr] at hfc
            simp [dmem] at hfc
          · rw [coverGenMap.eq_def, hcr, hr] at hgc
            simp [dmem] at hgc
        · exact selectCover_index_not_mem hn hsel
            ((hkc ▸ hqk : q.index = c.index) ▸
              List.mem_map_of_mem Page.index (hfan_others q hq))
      · rcases (runAccF_fail_dmem ctx oracle compress pages taskId fullOutline userImages
            userTopic activeBrand arrival k).mp hf' with hfc | ⟨q, hq, hqok, hqk⟩
        · obtain ⟨c, r, hcr, hkc⟩ := coverFailMap_dmem hfc
          have hsel := (coverRes_shape hcr).1
          exact selectCover_index_not_mem hn hsel
            ((hkc ▸ hpk : p.index = c.index) ▸
              List.mem_map_of_mem Page.index (hfan_others p hp))
        · have hpq : p = q := by
            have hnd := selectCover_snd_nodup hn
            exact List.inj_on_of_nodup_map hnd (hfan_others p hp) (hfan_others q hq)
              (hpk.trans hqk.symm)
          rw [hpq, hqok] at hpok
          cases hpok
    · intro k hk
      have hpages : ({ (runCP ctx oracle compress pages taskId fullOutline userImages
          userTopic activeBrand).2.1 with
            generated := (runAccF ctx oracle compress pages taskId fullOutline userImages
              userTopic activeBrand arrival).gen,
            failed := (runAccF ctx oracle compress pages taskId fullOutline userImages
              userTopic activeBrand arrival).fail } : TaskState).pages = pages :=
        (runCP_proj ctx oracle compress pages taskId fullOutline userImages userTopic
          activeBrand).2.2.2.2.2.2.1
      rw [hpages]
      rcases hk with hg | hf
      · have hg' : dmem k (runAccF ctx oracle compress pages taskId fullOutline userImages
          userTopic activeBrand arrival).gen = true := hg
        rcases (runAccF_gen_dmem ctx oracle compress pages taskId fullOutline userImages
            userTopic activeBrand arrival k).mp hg' with hgc | ⟨p, hp, -, hpk⟩
        · obtain ⟨c, r, hcr, hkc⟩ := coverGenMap_dmem hgc
          exact hkc ▸ List.mem_map_of_mem Page.index
            (selectCover_fst_mem (coverRes_shape hcr).1)
        · exact hpk ▸ List.mem_map_of_mem Page.index
            ((selectCover_snd_sublist pages).mem (hfan_others p hp))
      · have hf' : dmem k (runAccF ctx oracle compress pages taskId fullOutline userImages
          userTopic activeBrand arrival).fail = true := hf
        rcases (runAccF_fail_dmem ctx oracle compress pages taskId fullOutline userImages
            userTopic activeBrand arrival k).mp hf' with hfc | ⟨p, hp, -, hpk⟩
        · obtain ⟨c, r, hcr, hkc⟩ := coverFailMap_dmem hfc
          exact hkc ▸ List.mem_map_of_mem Page.index
            (selectCover_fst_mem (coverRes_shape hcr).1)
        · exact hpk ▸ List.mem_map_of_mem Page.index
            ((selectCover_snd_sublist pages).mem (hfan_others p hp))
  · intro ctx oracle compress disk0 states taskId page useReference fullOutline0 userTopic0
      activeBrand ts hmem hinv hk ts' hts'
    exact hsingle ctx oracle compress disk0 states taskId page useReference fullOutline0
      userTopic0 activeBrand ts hmem hinv hk ts' hts'
  · intro ctx oracle states taskId pagesR activeBrand arrival ts hmem hinv hidx harr ts' hts'
    rw [retry_failed_images] at hts'
    simp only [hmem] at hts'
    exact (retryFold_inv ctx oracle taskId _ _ _ _ _ (ts.pages.map Page.index) arrival
      (fun p hp => hidx p (harr.mem_iff.mp hp)) _
      (fun ts0 h0 => by
        rw [hmem] at h0
        injection h0 with h
        subst h
        exact ⟨hinv, rfl⟩) ts' hts').1
  · intro ctx oracle compress disk0 states taskId page useReference fullOutline0 userTopic0
      activeBrand ts hmem hfailed hsucc
    rw [retry_single_image] at hsucc ⊢
    simp only [hmem] at hsucc ⊢
    split at hsucc
    · next i f d heq =>
      obtain ⟨rfl, -⟩ := genSingle_ok_eq heq
      refine ⟨_, slookup_supdate_self taskId _ states, ?_, ?_⟩
      · show dmem page.index (dinsert page.index f ts.generated) = true
        rw [dmem_dinsert]
        simp
      · show dmem page.index (derase page.index ts.failed) = false
        rw [dmem_derase]
        simp
    · next i m heq =>
      simp at hsucc

/-- Witness for C3: a concrete successful retry of a previously failed page
moves it from `failed` to `generated`. -/
theorem generated_failed_invariant_witness :
    ∃ ts', slookup (retry_single_image exCtx exOracleOk id none
        [("t", { pages := exPages, generated := [], failed := [(1, "boom")],
                 cover_image := some "C", full_outline := "", user_images := none,
                 user_topic := "", brand_style := none })]
        "t" ⟨1, "content", "B"⟩ true "" "" none).2 "t" = some ts'
      ∧ dmem 1 ts'.generated = true ∧ dmem 1 ts'.failed = false :=
  generated_failed_invariant.2.2.2.2 exCtx exOracleOk id none
    [("t", { pages := exPages, generated := [], failed := [(1, "boom")],
             cover_image := some "C", full_outline := "", user_images := none,
             user_topic := "", brand_style := none })]
    "t" ⟨1, "content", "B"⟩ true "" "" none
    { pages := exPages, generated := [], failed := [(1, "boom")],
      cover_image := some "C", full_outline := "", user_images := none,
      user_topic := "", brand_style := none }
    rfl (by decide) rfl

theorem dlookup_derase_self (k : Nat) (m : List (Nat × String)) :
    dlookup k (derase k m) = none := by
  induction m with
  | nil => simp [derase, dlookup]
  | cons hd t ih =>
    obtain ⟨k₀, v₀⟩ := hd
    by_cases hk : k₀ = k
    · simp [derase, hk, ih]
    · simp [derase, hk, dlookup, ih]

theorem retryFold_events_mono (ctx : Ctx) (oracle : ProviderCall → Except String Bytes)
    (taskId : String) (reference : Option Bytes) (fullOutline : String)
    (userImages : Option (List Bytes)) (userTopic : String) (brand : Option String)
    (l : List Page) :
    ∀ (acc : RetryAcc) (e : Event), e ∈ acc.events →
      e ∈ (l.foldl (retryStep ctx oracle taskId reference fullOutline userImages userTopic
        brand) acc).events := by
  induction l with
  | nil => intro acc e he; exact he
  | cons q rest ih =>
    intro acc e he
    rw [List.foldl_cons]
    apply ih
    rw [retryStep]
    cases hg : genSingle ctx oracle q reference fullOutline userImages userTopic brand with
    | ok i f d => simp [he]
    | err i m => simp [he]

theorem retryFold_terminal_mem (ctx : Ctx) (oracle : ProviderCall → Except String Bytes)
    (taskId : String) (reference : Option Bytes) (fullOutline : String)
    (userImages : Option (List Bytes)) (userTopic : String) (brand : Option String)
    {l : List Page} {p : Page} (hp : p ∈ l) :
    ∀ acc : RetryAcc,
      (∃ u, Event.retryComplete p.index u
        ∈ (l.foldl (retryStep ctx oracle taskId reference fullOutline userImages userTopic
            brand) acc).events)
      ∨ (∃ m, Event.retryError p.index m true
        ∈ (l.foldl (retryStep ctx oracle taskId reference fullOutline userImages userTopic
            brand) acc).events) := by
  induction l with
  | nil => cases hp
  | cons q rest ih =>
    intro acc
    rcases List.mem_cons.mp hp with rfl | hp'
    · rw [List.foldl_cons]
      cases hg : genSingle ctx oracle p reference fullOutline userImages userTopic brand with
      | ok i f d =>
        obtain ⟨rfl, -⟩ := genSingle_ok_eq hg
        left
        refine ⟨imgUrl taskId f, ?_⟩
        apply retryFold_events_mono
        rw [retryStep]
        simp [hg]
      | err i m =>
        have := genSingle_err_eq hg
        subst this
        right
        refine ⟨m, ?_⟩
        apply retryFold_events_mono
        rw [retryStep]
        simp [hg]
    · rw [List.foldl_cons]
      exact ih hp' _

theorem retryFold_failed_shrink (ctx : Ctx) (oracle : ProviderCall → Except String Bytes)
    (taskId : String) (reference : Option Bytes) (fullOutline : String)
    (userImages : Option (List Bytes)) (userTopic : String) (brand : Option String)
    (ts : TaskState) (l : List Page) :
    ∀ acc : RetryAcc,
      (∀ ts0, slookup acc.states taskId = some ts0
        → ∀ k, dlookup k ts0.failed = dlookup k ts.failed ∨ dlookup k ts0.failed = none) →
      ∀ ts', slookup ((l.foldl (retryStep ctx oracle taskId reference fullOutline userImages
          userTopic brand) acc)).states taskId = some ts'
        → ∀ k, dlookup k ts'.failed = dlookup k ts.failed ∨ dlookup k ts'.failed = none := by
  induction l with
  | nil => intro acc hacc; exact hacc
  | cons q rest ih =>
    intro acc hacc
    rw [List.foldl_cons]
    apply ih
    intro ts0 h0 k
    rw [retryStep] at h0
    cases hg : genSingle ctx oracle q reference fullOutline userImages userTopic brand with
    | err i m =>
      simp only [hg] at h0
      exact hacc ts0 h0 k
    | ok i f d =>
      simp only [hg] at h0
      cases hl : slookup acc.states taskId with
      | none =>
        rw [hl] at h0
        exact hacc ts0 (by simpa using h0) k
      | some ts1 =>
        rw [hl] at h0
        simp only at h0
        rw [slookup_supdate_self] at h0
        injection h0 with h
        subst h
        by_cases hk : k = i
        · subst hk
          right
          exact dlookup_derase_self k ts1.failed
        · have : dlookup k (derase i ts1.failed) = dlookup k ts1.failed :=
            dlookup_derase_ne i k ts1.failed hk
          rcases hacc ts1 hl k with h1 | h1
          · left
            show dlookup k (derase i ts1.failed) = _
            rw [this, h1]
          · right
            show dlookup k (derase i ts1.failed) = none
            rw [this, h1]

/-- C5 counterexample: a failing `retry_single_image` reports the error only
in its result dict — the task's `failed` map is left untouched (here it does
not contain the page's index at all afterwards), contradicting the claim that
every per-page error is recorded in the `failed` map. -/
theorem retry_failure_not_recorded_counterexample :
    (retry_single_image exCtx exOracleFail id none [("t", exTs1)] "t" ⟨1, "content", "B"⟩
      true "" "" none).1.success = false
    ∧ (retry_single_image exCtx exOracleFail id none [("t", exTs1)] "t" ⟨1, "content", "B"⟩
      true "" "" none).1.error = some "boom"
    ∧ slookup (retry_single_image exCtx exOracleFail id none [("t", exTs1)] "t"
      ⟨1, "content", "B"⟩ true "" "" none).2 "t" = some exTs1
    ∧ dlookup 1 exTs1.failed = none :=
  ⟨rfl, rfl, rfl, rfl⟩

/-- C5 amended: the initial pipeline reports every per-page failure both as an
`error` event and as an entry in the task's `failed` map (cover and fan-out
pages alike); `retry_single_image` (and thus `regenerate_image`) reports a
failure only through its `success = False` result, leaving the task states
untouched; `retry_failed_images` reports each page's outcome through a
`complete`/`error` event but never writes a new message into the `failed`
map — an entry can only keep its old value or disappear. -/
theorem per_page_error_reporting :
    (∀ (ctx : Ctx) (oracle : ProviderCall → Except String Bytes) (compress : Bytes → Bytes)
        (pages : List Page) (taskId fullOutline : String) (userImages : Option (List Bytes))
        (userTopic : String) (activeBrand : Option String) (arrival : List Page)
        (c : Page) (msg : String),
      (selectCover pages).1 = some c →
      genSingle ctx oracle c none fullOutline (compressUserImages compress userImages)
        userTopic activeBrand = .err c.index msg →
      (pages.map Page.index).Nodup → arrival.Perm (selectCover pages).2 →
      Event.errorCover c.index msg true
          ∈ (generate_images ctx oracle compress pages taskId fullOutline userImages
              userTopic activeBrand arrival).1
        ∧ dlookup c.index (generate_images ctx oracle compress pages taskId fullOutline
            userImages userTopic activeBrand arrival).2.failed = some msg)
    ∧ (∀ (ctx : Ctx) (oracle : ProviderCall → Except String Bytes) (compress : Bytes → Bytes)
        (pages : List Page) (taskId fullOutline : String) (userImages : Option (List Bytes))
        (userTopic : String) (activeBrand : Option String) (arrival : List Page)
        (p : Page) (m : String),
      (pages.map Page.index).Nodup → arrival.Perm (selectCover pages).2 →
      p ∈ (selectCover pages).2 →
      fanOutcome (runP ctx oracle compress pages taskId fullOutline userImages userTopic
        activeBrand) p = .err p.index m →
      Event.errorContent p.index m true
          ∈ (generate_images ctx oracle compress pages taskId fullOutline userImages
              userTopic activeBrand arrival).1
        ∧ dlookup p.index (generate_images ctx oracle compress pages taskId fullOutline
            userImages userTopic activeBrand arrival).2.failed = some m)
    ∧ (∀ (ctx : Ctx) (oracle : ProviderCall → Except String Bytes) (compress : Bytes → Bytes)
        (disk0 : Option Bytes) (states : TStates) (taskId : String) (page : Page)
        (useReference : Bool) (fullOutline0 userTopic0 : String) (activeBrand : Option String),
      (retry_single_image ctx oracle compress disk0 states taskId page useReference
        fullOutline0 userTopic0 activeBrand).1.success = false →
      (retry_single_image ctx oracle compress disk0 states taskId page useReference
          fullOutline0 userTopic0 activeBrand).2 = states
        ∧ (retry_single_image ctx oracle compress disk0 states taskId page useReference
            fullOutline0 userTopic0 activeBrand).1.retryable = some true
        ∧ ∃ m, (retry_single_image ctx oracle compress disk0 states taskId page useReference
            fullOutline0 userTopic0 activeBrand).1.error = some m)
    ∧ (∀ (ctx : Ctx) (oracle : ProviderCall → Except String Bytes) (states : TStates)
        (taskId : String) (pagesR : List Page) (activeBrand : Option String)
        (arrival : List Page),
      arrival.Perm pagesR → ∀ p ∈ pagesR,
      (∃ u, Event.retryComplete p.index u
          ∈ (retry_failed_images ctx oracle states taskId pagesR activeBrand arrival).1)
      ∨ (∃ m, Event.retryError p.index m true
          ∈ (retry_failed_images ctx oracle states taskId pagesR activeBrand arrival).1))
    ∧ (∀ (ctx : Ctx) (oracle : ProviderCall → Except String Bytes) (states : TStates)
        (taskId : String) (pagesR : List Page) (activeBrand : Option String)
        (arrival : List Page) (ts : TaskState),
      slookup states taskId = some ts →
      ∀ ts', slookup (retry_failed_images ctx oracle states taskId pagesR activeBrand
          arrival).2 taskId = some ts' →
      ∀ k, dlookup k ts'.failed = dlookup k ts.failed ∨ dlookup k ts'.failed = none) := by
  refine ⟨?_, ?_, ?_, ?_, ?_⟩
  · intro ctx oracle compress pages taskId fullOutline userImages userTopic activeBrand
      arrival c msg hsel hfail hn harr
    have hcr : coverRes ctx oracle compress pages fullOutline userImages userTopic activeBrand
        = some (c, .err c.index msg) := by
      rw [coverRes.eq_def, hsel]
      show some (c, genSingle ctx oracle c none fullOutline
        (compressUserImages compress userImages) userTopic activeBrand) = _
      rw [hfail]
    have hperm := fanOrder_perm
      (runP ctx oracle compress pages taskId fullOutline userImages userTopic activeBrand)
      harr
    constructor
    · rw [generate_images_eq]
      apply List.mem_append_left
      rw [runAccF_events]
      apply List.mem_append_left
      rw [coverEvts.eq_def, hcr]
      simp
    · rw [generate_images_eq]
      show dlookup c.index (runAccF ctx oracle compress pages taskId fullOutline userImages
        userTopic activeBrand arrival).fail = some msg
      have hstable : ∀ p ∈ fanOrder (runP ctx oracle compress pages taskId fullOutline
          userImages userTopic activeBrand) (selectCover pages).2 arrival,
          p.index ≠ c.index := by
        intro p hp he
        exact selectCover_index_not_mem hn hsel
          (he ▸ List.mem_map_of_mem Page.index (hperm.mem_iff.mp hp))
      rw [runAccF_fail_dlookup_stable ctx oracle compress pages taskId fullOutline userImages
        userTopic activeBrand arrival c.index hstable]
      rw [coverFailMap.eq_def, hcr]
      simp [dlookup]
  · intro ctx oracle compress pages taskId fullOutline userImages userTopic activeBrand
      arrival p m hn harr hp hm
    have hperm := fanOrder_perm
      (runP ctx oracle compress pages taskId fullOutline userImages userTopic activeBrand)
      harr
    have hp' : p ∈ fanOrder (runP ctx oracle compress pages taskId fullOutline userImages
        userTopic activeBrand) (selectCover pages).2 arrival := hperm.mem_iff.mpr hp
    have hnd : ((fanOrder (runP ctx oracle compress pages taskId fullOutline userImages
        userTopic activeBrand) (selectCover pages).2 arrival).map Page.index).Nodup :=
      (hperm.map Page.index).nodup_iff.mpr (selectCover_snd_nodup hn)
    constructor
    · have hmem := runAccF_terminal_mem ctx oracle compress pages taskId fullOutline
        userImages userTopic activeBrand arrival hp'
      have heq : terminalEvt (runP ctx oracle compress pages taskId fullOutline userImages
          userTopic activeBrand) p = Event.errorContent p.index m true := by
        rw [terminalEvt, hm]
      rw [heq] at hmem
      rw [generate_images_eq]
      exact List.mem_append_left _ hmem
    · rw [generate_images_eq]
      show dlookup p.index (runAccF ctx oracle compress pages taskId fullOutline userImages
        userTopic activeBrand arrival).fail = some m
      exact runAccF_fail_dlookup_mem ctx oracle compress pages taskId fullOutline userImages
        userTopic activeBrand arrival hp' hnd hm
  · intro ctx oracle compress disk0 states taskId page useReference fullOutline0 userTopic0
      activeBrand hfalse
    rw [retry_single_image] at hfalse ⊢
    split at hfalse
    · next i f d heq =>
      simp at hfalse
    · next i m heq =>
      exact ⟨rfl, rfl, m, rfl⟩
  · intro ctx oracle states taskId pagesR activeBrand arrival harr p hp
    have hp' : p ∈ arrival := harr.mem_iff.mpr hp
    rw [retry_failed_images]
    rcases retryFold_terminal_mem ctx oracle taskId
        (retryFailedReference states taskId) _ _ _ _ hp'
        { events := [Event.retryStart pagesR.length
            ("开始重试 " ++ toString pagesR.length ++ " 张失败的图片")],
          succ := 0, failCnt := 0, states := states } with ⟨u, hu⟩ | ⟨m, hmm⟩
    · exact Or.inl ⟨u, List.mem_append_left _ hu⟩
    · exact Or.inr ⟨m, List.mem_append_left _ hmm⟩
  · intro ctx oracle states taskId pagesR activeBrand arrival ts hmem ts' hts' k
    rw [retry_failed_images] at hts'
    exact retryFold_failed_shrink ctx oracle taskId _ _ _ _ _ ts arrival _
      (fun ts0 h0 k0 => by
        show dlookup k0 ts0.failed = _ ∨ _
        have : slookup states taskId = some ts0 := h0
        rw [hmem] at this
        injection this with h
        subst h
        exact Or.inl rfl) ts' hts' k

/-- Witness for the amended C5: a failing single retry at a concrete input
reports via its result and leaves the task states unchanged. -/
theorem per_page_error_reporting_witness :
    (retry_single_image exCtx exOracleFail id none [("t", exTs1)] "t" ⟨1, "content", "B"⟩
        true "" "" none).2 = [("t", exTs1)]
      ∧ (retry_single_image exCtx exOracleFail id none [("t", exTs1)] "t" ⟨1, "content", "B"⟩
          true "" "" none).1.retryable = some true
      ∧ ∃ m, (retry_single_image exCtx exOracleFail id none [("t", exTs1)] "t"
          ⟨1, "content", "B"⟩ true "" "" none).1.error = some m :=
  per_page_error_reporting.2.2.1 exCtx exOracleFail id none [("t", exTs1)] "t"
    ⟨1, "content", "B"⟩ true "" "" none rfl

/-- C6 counterexample: with the cover bytes absent from the in-memory task
state and `0.png` present on disk, `retry_failed_images`'s reference
computation yields `none` — it never falls back to the disk copy, unlike the
spec's prescribed behaviour (`specRetryReference`, which recompresses the
disk bytes). -/
theorem retry_failed_no_disk_fallback_counterexample :
    retryFailedReference [("t", exTsNoCover)] "t" = none
    ∧ specRetryReference id (some "DISKBYTES") [("t", exTsNoCover)] "t" = some "DISKBYTES"
    ∧ retryFailedReference [("t", exTsNoCover)] "t"
        ≠ specRetryReference id (some "DISKBYTES") [("t", exTsNoCover)] "t" := by
  refine ⟨rfl, rfl, ?_⟩
  intro h
  rw [show retryFailedReference [("t", exTsNoCover)] "t" = none from rfl,
    show specRetryReference id (some "DISKBYTES") [("t", exTsNoCover)] "t"
      = some "DISKBYTES" from rfl] at h
  cases h

/-- C6 amended: the disk fallback exists only in `retry_single_image` (and
`regenerate_image`, which is the same function): with `use_reference` set and
no in-memory cover bytes the reference is the recompressed `0.png` contents;
in-memory bytes take precedence; without `use_reference` there is no
reference.  The reference is what the constructed provider request carries
(shown for the `google_genai` request shape).  `retry_failed_images` uses
only the in-memory cover bytes. -/
theorem cover_disk_fallback :
    (∀ (compress : Bytes → Bytes) (disk0 : Option Bytes) (states : TStates) (taskId : String),
      (slookup states taskId).bind (fun ts => ts.cover_image) = none →
      retrySingleReference compress disk0 states taskId true = disk0.map compress)
    ∧ (∀ (compress : Bytes → Bytes) (disk0 : Option Bytes) (states : TStates)
        (taskId : String) (r : Bytes),
      (slookup states taskId).bind (fun ts => ts.cover_image) = some r →
      retrySingleReference compress disk0 states taskId true = some r)
    ∧ (∀ (compress : Bytes → Bytes) (disk0 : Option Bytes) (states : TStates)
        (taskId : String),
      retrySingleReference compress disk0 states taskId false = none)
    ∧ (∀ (ctx : Ctx) (oracle : ProviderCall → Except String Bytes) (compress : Bytes → Bytes)
        (disk0 : Option Bytes) (states : TStates) (taskId : String) (page : Page)
        (useReference : Bool) (fullOutline0 userTopic0 : String)
        (activeBrand : Option String),
      regenerate_image ctx oracle compress disk0 states taskId page useReference
          fullOutline0 userTopic0 activeBrand
        = retry_single_image ctx oracle compress disk0 states taskId page useReference
            fullOutline0 userTopic0 activeBrand)
    ∧ (∀ (ctx : Ctx) (prompt : String) (b : Option Bytes) (ui : Option (List Bytes)),
      ctx.providerType = "google_genai" → mkCall ctx prompt b ui = .google prompt b)
    ∧ (∀ (states : TStates) (taskId : String),
      retryFailedReference states taskId
        = (slookup states taskId).bind (fun ts => ts.cover_image)) := by
  refine ⟨?_, ?_, ?_, ?_, ?_, ?_⟩
  · intro compress disk0 states taskId h
    rw [retrySingleReference, if_pos rfl, h]
  · intro compress disk0 states taskId r h
    rw [retrySingleReference, if_pos rfl, h]
  · intro compress disk0 states taskId
    rw [retrySingleReference, if_neg (by simp)]
  · intro ctx oracle compress disk0 states taskId page useReference fullOutline0 userTopic0
      activeBrand
    rfl
  · intro ctx prompt b ui h
    rw [mkCall.eq_def, if_pos h]
  · intro states taskId
    rfl

/-- Witness for the amended C6: concrete fallback to the disk copy. -/
theorem cover_disk_fallback_witness :
    retrySingleReference id (some "DISKBYTES") [("t", exTsNoCover)] "t" true
      = some "DISKBYTES" :=
  cover_disk_fallback.1 id (some "DISKBYTES") [("t", exTsNoCover)] "t" rfl

/-- C7 counterexample: with an empty `full_outline`, the full prompt template
is filled with the empty string at the outline placeholder, not with the
neutral placeholder the spec prescribes (`specFullModePrompt`). -/
theorem outline_placeholder_counterexample :
    fullModePrompt exTmpl ⟨1, "content", "c"⟩ "" "topic"
      ≠ specFullModePrompt exTmpl ⟨1, "content", "c"⟩ "" "topic" := by
  decide

/-- C7 amended: only a missing `user_topic` is replaced by the neutral
placeholder "未提供"; a missing `full_outline` is substituted literally as the
empty string.  This is what the non-short prompt path of the pipeline uses. -/
theorem prompt_placeholder_amended :
    (∀ (t : List Chunk) (p : Page) (outline : String),
      fullModePrompt t p outline "" = formatFull t p.content p.type outline "未提供")
    ∧ (∀ (t : List Chunk) (p : Page) (outline topic : String), topic ≠ "" →
      fullModePrompt t p outline topic = formatFull t p.content p.type outline topic)
    ∧ (∀ (ctx : Ctx) (p : Page) (outline : String), ctx.useShortPrompt = false →
      buildPrompt ctx none p outline ""
        = formatFull ctx.tmplFull p.content p.type outline "未提供") := by
  refine ⟨?_, ?_, ?_⟩
  · intro t p outline
    rw [fullModePrompt, if_pos rfl]
  · intro t p outline topic ht
    rw [fullModePrompt, if_neg ht]
  · intro ctx p outline hs
    rw [buildPrompt]
    simp only [hs, Bool.false_and, Bool.false_eq_true, if_false]
    rw [fullModePrompt, if_pos rfl]

/-- Witness for the amended C7: concrete substitution with an empty outline
and a non-empty topic. -/
theorem prompt_placeholder_witness :
    fullModePrompt exTmpl ⟨1, "content", "c"⟩ "" "x"
      = formatFull exTmpl "c" "content" "" "x" :=
  prompt_placeholder_amended.2.1 exTmpl ⟨1, "content", "c"⟩ "" "x" (by decide)

/-- C8 counterexample: a markdown image whose target is a base64 data URI.
No earlier form matches (`findMdHttp` fails) and the spec's ordered scraper
resolves it to a base64 decode, but the `openai_compatible` adapter — which
has no markdown-data-URI step — raises its diagnostic error instead. -/
theorem openai_scrape_counterexample :
    findMdHttp exMd.toList = none
    ∧ findMdData exMd.toList = some "data:image/png;base64,AAAA"
    ∧ specChatScrapeForm exMd = some (.decodeB64 "AAAA")
    ∧ openaiChatScrape exMd = .error (openaiNoImageMsg exMd)
    ∧ ∀ r, openaiChatScrape exMd ≠ .ok r := by
  refine ⟨rfl, rfl, rfl, rfl, ?_⟩
  intro r h
  rw [show openaiChatScrape exMd = .error (openaiNoImageMsg exMd) from rfl] at h
  cases h

/-- C8 amended: the `image_api` chat scraper attempts, in order, markdown
http(s) URL, markdown base64 data URI, bare data URI, bare http(s) URL — the
first match wins; the `openai_compatible` chat scraper attempts only markdown
http(s) URL, bare data URI, bare http(s) URL, in that order; in both
adapters, when no form matches, the call fails with an error that embeds the
raw response (truncated to 500 characters). -/
theorem chat_scrape_order :
    ∀ content : String,
      (∀ u, findMdHttp content.toList = some u →
        openaiChatScrape content = .ok (.download u)
          ∧ imageApiChatScrape content = .ok (.download u))
      ∧ (findMdHttp content.toList = none →
          ∀ d pay, findMdData content.toList = some d → pySplitComma1 d = some pay →
          imageApiChatScrape content = .ok (.decodeB64 pay))
      ∧ (findMdHttp content.toList = none → findMdData content.toList = none →
          startsWithStr "data:image" content = true →
          ∀ pay, pySplitComma1 content = some pay →
          openaiChatScrape content = .ok (.decodeB64 pay)
            ∧ imageApiChatScrape content = .ok (.decodeB64 pay))
      ∧ (findMdHttp content.toList = none → findMdData content.toList = none →
          startsWithStr "data:image" content = false →
          (startsWithStr "http://" content || startsWithStr "https://" content) = true →
          openaiChatScrape content = .ok (.download (pyStrip content))
            ∧ imageApiChatScrape content = .ok (.download (pyStrip content)))
      ∧ (findMdHttp content.toList = none → findMdData content.toList = none →
          startsWithStr "data:image" content = false →
          (startsWithStr "http://" content || startsWithStr "https://" content) = false →
          openaiChatScrape content = .error (openaiNoImageMsg content)
            ∧ imageApiChatScrape content = .error (imageApiNoImageMsg content)
            ∧ (∃ a b, openaiNoImageMsg content = a ++ take500 content ++ b)
            ∧ (∃ a b, imageApiNoImageMsg content = a ++ take500 content ++ b)) := by
  intro content
  refine ⟨?_, ?_, ?_, ?_, ?_⟩
  · intro u h
    constructor
    · simp only [openaiChatScrape, h]
    · simp only [imageApiChatScrape, h]
  · intro h1 d pay h2 h3
    simp only [imageApiChatScrape, h1, h2, h3]
  · intro h1 h2 hd pay hp
    constructor
    · simp only [openaiChatScrape, h1, hd, eq_self_iff_true, if_true, hp]
    · simp only [imageApiChatScrape, h1, h2, hd, eq_self_iff_true, if_true, hp]
  · intro h1 h2 hd hu
    constructor
    · simp only [openaiChatScrape, h1, hd, hu, Bool.false_eq_true, if_false,
        eq_self_iff_true, if_true]
    · simp only [imageApiChatScrape, h1, h2, hd, hu, Bool.false_eq_true, if_false,
        eq_self_iff_true, if_true]
  · intro h1 h2 hd hu
    refine ⟨?_, ?_, ?_, ?_⟩
    · simp only [openaiChatScrape, h1, hd, hu, Bool.false_eq_true, if_false]
    · simp only [imageApiChatScrape, h1, h2, hd, hu, Bool.false_eq_true, if_false]
    · refine ⟨"❌ 无法从 Chat API 响应中提取图片数据\n\n【响应内容】\n",
        "\n\n【可能原因】\n1. 该模型不支持图片生成\n2. 响应格式与预期不符\n3. 提示词被安全过滤\n\n"
          ++ "【解决方案】\n1. 确认模型名称正确（如 Nano-Banana-Pro）\n2. 修改提示词后重试", ?_⟩
      rw [openaiNoImageMsg]
      rw [String.append_assoc]
    · refine ⟨"❌ 无法从 Chat API 响应中提取图片数据\n\n【响应内容】\n",
        "\n\n【可能原因】\n1. 该模型不支持图片生成\n2. 响应格式与预期不符\n3. 提示词被安全过滤\n\n"
          ++ "【解决方案】\n1. 确认模型名称正确\n2. 修改提示词后重试", ?_⟩
      rw [imageApiNoImageMsg]
      rw [String.append_assoc]

/-- Witness for the amended C8: the no-match case at a concrete content. -/
theorem chat_scrape_order_witness :
    openaiChatScrape "hello" = .error (openaiNoImageMsg "hello")
      ∧ imageApiChatScrape "hello" = .error (imageApiNoImageMsg "hello")
      ∧ (∃ a b, openaiNoImageMsg "hello" = a ++ take500 "hello" ++ b)
      ∧ (∃ a b, imageApiNoImageMsg "hello" = a ++ take500 "hello" ++ b) :=
  (chat_scrape_order "hello").2.2.2.2 rfl rfl rfl rfl

end RedInk
